import Mathlib

/-!
Verification development for the powermetrics-tui parser core
(`internal/parser` and `internal/models` of the Go source).

The Go code is shallowly embedded: Go structs become Lean structures, Go
maps become association lists (Go map iteration order is unspecified; the
embedding fixes the insertion order, and no proved statement depends on
that order), Go `float64` metric values become `Rat` (no claim here
depends on floating-point rounding), Go `time.Time` becomes a `Nat`
timestamp, and the external `ps -p <pid>` liveness probe becomes an
oracle `Nat → Bool` (`true` = the probe command succeeded = alive).
-/

namespace PMT

/-! ## Association-list embedding of Go maps -/

/-- Lookup in an association list (Go `m[k]` read, `ok` part). -/
def alookup {α β : Type} [DecidableEq α] (m : List (α × β)) (k : α) : Option β :=
  match m with
  | [] => none
  | (k1, v1) :: rest => if k1 = k then some v1 else alookup rest k

/-- Go map write `m[k] = v`: replace the binding if present, else append. -/
def aset {α β : Type} [DecidableEq α] (m : List (α × β)) (k : α) (v : β) : List (α × β) :=
  match m with
  | [] => [(k, v)]
  | (k1, v1) :: rest => if k1 = k then (k, v) :: rest else (k1, v1) :: aset rest k v

/-- Go `delete(m, k)`. -/
def aremove {α β : Type} [DecidableEq α] (m : List (α × β)) (k : α) : List (α × β) :=
  match m with
  | [] => []
  | (k1, v1) :: rest => if k1 = k then aremove rest k else (k1, v1) :: aremove rest k

theorem alookup_aset_self {α β : Type} [DecidableEq α] (m : List (α × β)) (k : α) (v : β) :
    alookup (aset m k v) k = some v := by
  induction m with
  | nil => simp [aset, alookup]
  | cons hd tl ih =>
    by_cases h : hd.1 = k
    · simp [aset, alookup, h]
    · simp [aset, alookup, h, ih]

theorem alookup_aset_ne {α β : Type} [DecidableEq α] (m : List (α × β)) (k k1 : α) (v : β)
    (h : k1 ≠ k) : alookup (aset m k1 v) k = alookup m k := by
  induction m with
  | nil => simp [aset, alookup, h]
  | cons hd tl ih =>
    by_cases h1 : hd.1 = k1
    · simp [aset, alookup, h1, h]
    · simp only [aset, if_neg h1]
      by_cases h2 : hd.1 = k
      · simp [alookup, h2]
      · simp [alookup, h2, ih]

theorem alookup_aremove_ne {α β : Type} [DecidableEq α] (m : List (α × β)) (k k1 : α)
    (h : k1 ≠ k) : alookup (aremove m k1) k = alookup m k := by
  induction m with
  | nil => simp [aremove]
  | cons hd tl ih =>
    by_cases h1 : hd.1 = k1
    · have hk : hd.1 ≠ k := by rw [h1]; exact h
      simp [aremove, h1, alookup, hk, ih, h]
    · by_cases h2 : hd.1 = k
      · simp [aremove, h1, alookup, h2, Ne.symm h]
      · simp [aremove, h1, alookup, h2, ih]

theorem alookup_aremove_self {α β : Type} [DecidableEq α] (m : List (α × β)) (k : α) :
    alookup (aremove m k) k = none := by
  induction m with
  | nil => simp [aremove, alookup]
  | cons hd tl ih =>
    by_cases h1 : hd.1 = k
    · simpa [aremove, h1] using ih
    · simpa [aremove, h1, alookup] using ih

/-! ## Character and string utilities

`strings.TrimSpace` / `unicode.IsSpace` (restricted to the ASCII range the
parsed output uses) versus the RE2 `\s` class `[\t\n\f\r ]`. -/

/-- Whitespace as Go `unicode.IsSpace` sees it (ASCII subset). -/
def goWS (c : Char) : Bool :=
  c = ' ' || c = '\t' || c = '\n' || c = '\u000b' || c = '\u000c' || c = '\r'

/-- Whitespace as the RE2 class `\s` = `[\t\n\f\r ]` sees it. -/
def reWS (c : Char) : Bool :=
  c = ' ' || c = '\t' || c = '\n' || c = '\u000c' || c = '\r'

def chIsDigit (c : Char) : Bool := '0' ≤ c && c ≤ '9'

/-- The RE2 class `[0-9.]`. -/
def chIsNum (c : Char) : Bool := chIsDigit c || c = '.'

/-- The RE2 class `\w` (ASCII): letters, digits, underscore. -/
def chIsWord (c : Char) : Bool :=
  chIsDigit c || ('a' ≤ c && c ≤ 'z') || ('A' ≤ c && c ≤ 'Z') || c = '_'

/-- Go `strings.TrimSpace` on a character list. -/
def trimChars (cs : List Char) : List Char :=
  ((cs.dropWhile goWS).reverse.dropWhile goWS).reverse

def sTrim (s : String) : String := String.mk (trimChars s.data)

/-- Prefix test on character lists. -/
def chPrefix : List Char → List Char → Bool
  | [], _ => true
  | _ :: _, [] => false
  | p :: ps, c :: cs => p = c && chPrefix ps cs

/-- Substring containment (Go `strings.Contains`). -/
def chContains (hay pat : List Char) : Bool :=
  match hay with
  | [] => chPrefix pat []
  | _ :: rest => chPrefix pat hay || chContains rest pat

def sContains (s pat : String) : Bool := chContains s.data pat.data

def sHasPrefix (s pat : String) : Bool := chPrefix pat.data s.data

/-! ## Line predicates (`internal/parser/parser_utils.go`) -/

/-- Go `IsSection`: the trimmed line starts with three stars. -/
def IsSection (line : String) : Bool := sHasPrefix (sTrim line) ("***")

/-- Go `IsNewSample`: the line contains the sample marker. -/
def IsNewSample (line : String) : Bool := sContains line ("*** Sampled system activity")

/-- Go `IsRunningTasks`. -/
def IsRunningTasks (line : String) : Bool := sContains line ("*** Running tasks ***")

/-- Go `IsEndOfTasks`. -/
def IsEndOfTasks (line : String) : Bool := sHasPrefix (sTrim line) ("ALL_TASKS")

/-- Go `IsTasksHeader`. -/
def IsTasksHeader (line : String) : Bool :=
  sContains line ("Name") && sContains line ("ID")

/-- Go `IsIndented`: the raw line starts with a space or a tab. -/
def IsIndented (line : String) : Bool :=
  sHasPrefix line (" ") || sHasPrefix line ("\t")

/-! ## The process-line pattern

`processRegex = ^(.+?)\s+(\d+)\s+([0-9.]+)\s+([0-9.]+)` (parser.go line 64).
Every character class here (`\s`, `\d`, `[0-9.]`) is disjoint from the class
that follows it in the pattern, so RE2 backtracking coincides with
deterministic maximal munch; the lazy leading group `(.+?)` is realised by
trying the shortest prefix first. -/

/-- Match `\s+(\d+)\s+([0-9.]+)\s+([0-9.]+)` at the start of `cs`, returning
the three capture groups (trailing input is unconstrained). -/
def matchProcTail (cs : List Char) : Option (List Char × List Char × List Char) :=
  let (w1, r1) := cs.span reWS
  if w1.isEmpty then none else
  let (d, r2) := r1.span chIsDigit
  if d.isEmpty then none else
  let (w2, r3) := r2.span reWS
  if w2.isEmpty then none else
  let (n1, r4) := r3.span chIsNum
  if n1.isEmpty then none else
  let (w3, r5) := r4.span reWS
  if w3.isEmpty then none else
  let (n2, _) := r5.span chIsNum
  if n2.isEmpty then none else
  some (d, n1, n2)

/-- Grow the lazy group `(.+?)` one character at a time (shortest match wins;
`.` does not match a newline). -/
def procMatchAux (pre rest : List Char) : Option (List Char × List Char × List Char × List Char) :=
  match rest with
  | [] => none
  | c :: rest2 =>
    if c = '\n' then none else
    match matchProcTail rest2 with
    | some (d, n1, n2) => some (pre ++ [c], d, n1, n2)
    | none => procMatchAux (pre ++ [c]) rest2

/-- Go `processRegex.FindStringSubmatch(line)`: the four capture groups, or
`none` when the pattern does not match. -/
def procMatch (line : String) : Option (List Char × List Char × List Char × List Char) :=
  procMatchAux [] line.data

/-! ## Numeric parsing (`strconv.Atoi` / `strconv.ParseFloat`)

These are only ever applied to capture groups drawn from `\d+` and
`[0-9.]+`, so the embedding covers exactly those shapes. -/

def parseDigits (cs : List Char) : Nat :=
  cs.foldl (fun n c => n * 10 + (c.toNat - 48)) 0

/-- Go `strconv.ParseFloat` restricted to strings over `[0-9.]`: at most one
dot, and at least one digit somewhere ("1." and ".5" parse, "." and "1.2.3"
fail). The Go callers discard the error and use 0 on failure. -/
def parseQ (cs : List Char) : Option ℚ :=
  if cs.isEmpty then none
  else
    match cs.splitOn '.' with
    | [ip] => some (parseDigits ip)
    | [ip, fp] =>
      if ip.isEmpty && fp.isEmpty then none
      else some ((parseDigits ip : ℚ) + (parseDigits fp : ℚ) / ((10 : ℚ) ^ fp.length))
    | _ => none

/-! ## Data model (`internal/models/models.go`, latest revision)

Only the fields touched by the running-tasks reconciler, liveness tracker,
per-CPU interrupt bookkeeping and frequency classifier are carried; the
remaining scalar metric fields (power, battery, thermal, ...) are untouched
by every claim under study. -/

structure ProcessInfo where
  pid : Nat
  name : String
  coalitionName : String
  cpuPercent : ℚ
  memoryMB : ℚ
  diskMB : ℚ
  networkMB : ℚ
  cpuHistory : List ℚ
  memoryHistory : List ℚ
deriving Repr, DecidableEq

structure ProcessCoalition where
  coalitionID : Nat
  name : String
  cpuPercent : ℚ
  memoryMB : ℚ
  diskMB : ℚ
  networkMB : ℚ
  subprocesses : List ProcessInfo
  cpuHistory : List ℚ
  memoryHistory : List ℚ
deriving Repr, DecidableEq

structure ExitedProcessInfo where
  name : String
  pids : List Nat
  occurrences : Nat
  lastExitTime : Nat
  firstSeenTime : Nat
deriving Repr, DecidableEq

structure MetricsState where
  perCPUInterrupts : List (String × ℚ) := []
  perCPUIPIs : List (String × ℚ) := []
  perCPUTimers : List (String × ℚ) := []
  allSeenCPUs : List String := []
  perCPUInterruptHistory : List (String × List ℚ) := []
  eCoreFreq : List Nat := []
  pCoreFreq : List Nat := []
  allCpuFreq : List (Nat × Nat) := []
  maxECores : Nat := 0
  maxPCores : Nat := 0
  eCoreFreqHistory : List (Nat × List ℚ) := []
  pCoreFreqHistory : List (Nat × List ℚ) := []
  processes : List ProcessInfo := []
  coalitions : List ProcessCoalition := []
  processCPUHistory : List (Nat × List ℚ) := []
  processMemHistory : List (Nat × List ℚ) := []
  coalitionCPUHistory : List (Nat × List ℚ) := []
  coalitionMemHistory : List (Nat × List ℚ) := []
  recentlyExited : List ExitedProcessInfo := []
  lastSeenPIDs : List (Nat × Nat) := []
  processNames : List (Nat × String) := []
  coalitionNames : List (Nat × String) := []
deriving Repr, DecidableEq

def emptyMetricsState : MetricsState := {}

/-- Go `models.AddToHistory`: append, then drop the front when over `max`. -/
def AddToHistory (history : List ℚ) (value : ℚ) (max : Nat) : List ℚ :=
  let h := history ++ [value]
  if h.length > max then h.drop 1 else h

theorem AddToHistory_length (history : List ℚ) (value : ℚ) (max : Nat) :
    (AddToHistory history value max).length =
      if history.length + 1 > max then history.length else history.length + 1 := by
  by_cases h : history.length + 1 > max <;> simp [AddToHistory, h]

theorem AddToHistory_length_min (history : List ℚ) (value : ℚ) (max : Nat)
    (h : history.length ≤ max) :
    (AddToHistory history value max).length = min (history.length + 1) max := by
  rw [AddToHistory_length]
  split <;> omega

theorem AddToHistory_length_le (history : List ℚ) (value : ℚ) (max : Nat)
    (h : history.length ≤ max) :
    (AddToHistory history value max).length ≤ max := by
  rw [AddToHistory_length]
  split <;> omega

/-! ## Parser states and context (`state_machine.go`, latest revision) -/

inductive PState where
  | waitingForSample
  | inSample
  | processorUsage
  | cpuInterrupts
  | powerMetrics
  | frequencies
  | networkIo
  | diskIo
  | memoryStats
  | thermalData
  | gpuUsage
  | battery
  | sfi
  | runningTasks
  | tasksCoalition
  | tasksSubprocess
  | errorState
deriving Repr, DecidableEq

/-- Go `ParserContext` (the fields the running-tasks and waiting-for-sample
handlers touch; the interrupt accumulators live here too). -/
structure Ctx where
  currentCPU : String := ""
  currentCluster : String := ""
  ipiTotal : ℚ := 0
  timerTotal : ℚ := 0
  interruptsTotal : ℚ := 0
  currentCoalition : Option ProcessCoalition := none
  newProcesses : List ProcessInfo := []
  newCoalitions : List ProcessCoalition := []
  orphanedSubprocesses : List ProcessInfo := []
  sampleCount : Nat := 0
  metricsState : MetricsState := {}
deriving Repr, DecidableEq

/-! ## RunningTasksHandler (`handler_error.go` lines 44-245)

`time.Now()` is passed in as a `Nat` timestamp `now`, and the
`ps -p <pid>` probe as an oracle `probe : Nat → Bool` (`true` = the command
exited without error = the process is alive). -/

/-- Go `RunningTasksHandler.Enter` (lines 51-62): flush a leftover open
coalition, then reset the per-sample accumulators. -/
def rtEnter (ctx : Ctx) : Ctx :=
  let ctx :=
    match ctx.currentCoalition with
    | some c => { ctx with newCoalitions := ctx.newCoalitions ++ [c], currentCoalition := none }
    | none => ctx
  { ctx with newProcesses := [], newCoalitions := [], orphanedSubprocesses := [] }

/-- Go `RunningTasksHandler.handleSubprocess` (lines 113-149). -/
def handleSubprocess (ctx : Ctx) (name : String) (id : Nat) (cpuPercent userPercent : ℚ) : Ctx :=
  let st := ctx.metricsState
  let cpuH := AddToHistory ((alookup st.processCPUHistory id).getD []) cpuPercent 10
  let st := { st with processCPUHistory := aset st.processCPUHistory id cpuH }
  let memH := AddToHistory ((alookup st.processMemHistory id).getD []) userPercent 10
  let st := { st with processMemHistory := aset st.processMemHistory id memH }
  let subprocess : ProcessInfo :=
    { pid := id, name := name, coalitionName := "", cpuPercent := cpuPercent,
      memoryMB := userPercent, diskMB := 0, networkMB := 0,
      cpuHistory := cpuH, memoryHistory := memH }
  match ctx.currentCoalition with
  | some c =>
    let sp := { subprocess with coalitionName := c.name }
    { ctx with metricsState := st,
               currentCoalition := some { c with subprocesses := c.subprocesses ++ [sp] },
               newProcesses := ctx.newProcesses ++ [sp] }
  | none =>
    let sp := { subprocess with coalitionName := "" }
    { ctx with metricsState := st,
               orphanedSubprocesses := ctx.orphanedSubprocesses ++ [sp],
               newProcesses := ctx.newProcesses ++ [sp] }

/-- Go `RunningTasksHandler.handleCoalition` (lines 151-182). -/
def handleCoalition (ctx : Ctx) (name : String) (id : Nat) (cpuPercent userPercent : ℚ) : Ctx :=
  let ctx :=
    match ctx.currentCoalition with
    | some c => { ctx with newCoalitions := ctx.newCoalitions ++ [c] }
    | none => ctx
  let st := ctx.metricsState
  let cpuH := AddToHistory ((alookup st.coalitionCPUHistory id).getD []) cpuPercent 10
  let st := { st with coalitionCPUHistory := aset st.coalitionCPUHistory id cpuH }
  let memH := AddToHistory ((alookup st.coalitionMemHistory id).getD []) userPercent 10
  let st := { st with coalitionMemHistory := aset st.coalitionMemHistory id memH }
  { ctx with metricsState := st,
             currentCoalition := some
               { coalitionID := id, name := name, cpuPercent := cpuPercent,
                 memoryMB := userPercent, diskMB := 0, networkMB := 0,
                 subprocesses := [], cpuHistory := cpuH, memoryHistory := memH } }

/-- Go `RunningTasksHandler.ProcessLine` (lines 64-111): returns the mutated
context and the next parser state. -/
def rtProcessLine (ctx : Ctx) (line : String) : Ctx × PState :=
  if IsNewSample line then (ctx, .waitingForSample)
  else if IsEndOfTasks line then (ctx, .inSample)
  else if IsSection line && !IsRunningTasks line then (ctx, .inSample)
  else if IsTasksHeader line || sContains line ("----") || sTrim line = "" then
    (ctx, .runningTasks)
  else if sContains line ("DEAD_TASKS") then (ctx, .runningTasks)
  else
    match procMatch line with
    | some (g1, g2, g3, g4) =>
      let name := sTrim (String.mk g1)
      let id := parseDigits g2
      let cpuMs := (parseQ g3).getD 0
      let userPercent := (parseQ g4).getD 0
      let cpuPercent := cpuMs / 10
      if IsIndented line then (handleSubprocess ctx name id cpuPercent userPercent, .runningTasks)
      else (handleCoalition ctx name id cpuPercent userPercent, .runningTasks)
    | none => (ctx, .runningTasks)

/-- The name→coalition lookup map built at the start of
`handleOrphanedSubprocesses` (lines 218-221). The Go code builds it but
never queries it afterwards. -/
def coalitionNameMap (cs : List ProcessCoalition) : List (String × ProcessCoalition) :=
  cs.foldl (fun m c => aset m c.name c) []

/-- The body of the orphan loop in `handleOrphanedSubprocesses`
(lines 224-244): update the orphan's per-PID histories, tag it with the
`"<orphaned>"` sentinel, and append it to the flat process list. -/
def orphStep (ctx : Ctx) (orphanedProc : ProcessInfo) : Ctx :=
  let st := ctx.metricsState
  let cpuH := AddToHistory ((alookup st.processCPUHistory orphanedProc.pid).getD [])
    orphanedProc.cpuPercent 10
  let st := { st with processCPUHistory := aset st.processCPUHistory orphanedProc.pid cpuH }
  let memH := AddToHistory ((alookup st.processMemHistory orphanedProc.pid).getD [])
    orphanedProc.memoryMB 10
  let st := { st with processMemHistory := aset st.processMemHistory orphanedProc.pid memH }
  let op := { orphanedProc with cpuHistory := cpuH, memoryHistory := memH,
                                coalitionName := "<orphaned>" }
  { ctx with metricsState := st, newProcesses := ctx.newProcesses ++ [op] }

/-- Go `RunningTasksHandler.handleOrphanedSubprocesses` (lines 216-245).
The name→coalition map is built and never queried, as in the source. -/
def handleOrphanedSubprocesses (ctx : Ctx) : Ctx :=
  let _coalitionMap := coalitionNameMap ctx.newCoalitions
  ctx.orphanedSubprocesses.foldl orphStep ctx

/-- Merge a confirmed-dead PID into the first ledger entry carrying its
process name (lines 348-367 of `trackExitedProcess`); `none` when no entry
has that name. -/
def trackIntoLedger (pid : Nat) (processName : String) (now : Nat) :
    List ExitedProcessInfo → Option (List ExitedProcessInfo)
  | [] => none
  | e :: rest =>
    if e.name = processName then
      let e :=
        if e.pids.contains pid then e
        else { e with pids := e.pids ++ [pid], occurrences := (e.pids ++ [pid]).length }
      some ({ e with lastExitTime := now } :: rest)
    else
      match trackIntoLedger pid processName now rest with
      | some rest2 => some (e :: rest2)
      | none => none

/-- Go `RunningTasksHandler.trackExitedProcess` (lines 346-381). -/
def trackExitedProcess (st : MetricsState) (pid : Nat) (processName : String) (now : Nat) :
    MetricsState :=
  match trackIntoLedger pid processName now st.recentlyExited with
  | some ledger => { st with recentlyExited := ledger }
  | none =>
    match alookup st.lastSeenPIDs pid with
    | some lastSeen =>
      { st with recentlyExited := st.recentlyExited ++
          [{ name := processName, pids := [pid], occurrences := 1,
             lastExitTime := now, firstSeenTime := lastSeen }] }
    | none => st

/-- Remove the first occurrence of `pid`, reporting whether it was found. -/
def removeFirst (pid : Nat) : List Nat → Option (List Nat)
  | [] => none
  | p :: rest =>
    if p = pid then some rest
    else
      match removeFirst pid rest with
      | some rest2 => some (p :: rest2)
      | none => none

/-- Go `RunningTasksHandler.removeFromRecentlyExited` (lines 383-402): scan
every ledger entry, drop the PID (first occurrence per entry), refresh the
occurrence count, and delete entries whose PID list becomes empty. -/
def removePidFromLedger (pid : Nat) : List ExitedProcessInfo → List ExitedProcessInfo
  | [] => []
  | e :: rest =>
    match removeFirst pid e.pids with
    | none => e :: removePidFromLedger pid rest
    | some pids2 =>
      if pids2.isEmpty then removePidFromLedger pid rest
      else { e with pids := pids2, occurrences := pids2.length } :: removePidFromLedger pid rest

def removeFromRecentlyExited (st : MetricsState) (pid : Nat) : MetricsState :=
  { st with recentlyExited := removePidFromLedger pid st.recentlyExited }

/-- Five minutes, in the `Nat` seconds of the embedding. -/
def fiveMinutes : Nat := 300

/-- One step of the exit-detection loop of `updateProcessTracking`
(lines 272-314), for a single previously-tracked PID. -/
def exitDetectStep (currentPIDs currentCoalitionIDs : List Nat) (now : Nat)
    (probe : Nat → Bool) (st : MetricsState) (pid : Nat) : MetricsState :=
  if currentPIDs.contains pid then st
  else if currentCoalitionIDs.contains pid then
    { st with lastSeenPIDs := aremove st.lastSeenPIDs pid }
  else
    let processName := (alookup st.processNames pid).getD ""
    if processName = "" then
      -- ghost PID: both Go branches (coalition-name hit or not) only differ
      -- in debug logging; each deletes the stale tracking entry
      { st with lastSeenPIDs := aremove st.lastSeenPIDs pid }
    else if probe pid then st
    else
      let st := trackExitedProcess st pid processName now
      { st with lastSeenPIDs := aremove st.lastSeenPIDs pid,
                processCPUHistory := aremove st.processCPUHistory pid,
                processMemHistory := aremove st.processMemHistory pid }

/-- One step of the roster loop of `updateProcessTracking` (lines 326-343):
refresh last-seen, record the name on first sight, and retract the PID from
the exited ledger. -/
def rosterStep (now : Nat) (st : MetricsState) (proc : ProcessInfo) : MetricsState :=
  let st := { st with lastSeenPIDs := aset st.lastSeenPIDs proc.pid now }
  let st :=
    match alookup st.processNames proc.pid with
    | none => { st with processNames := aset st.processNames proc.pid proc.name }
    | some _ => st  -- a name change is only logged, never applied
  removeFromRecentlyExited st proc.pid

/-- Go `RunningTasksHandler.updateProcessTracking` (lines 247-344). -/
def updateProcessTracking (ctx : Ctx) (now : Nat) (probe : Nat → Bool) : Ctx :=
  let currentPIDs := ctx.newProcesses.map (fun p => p.pid)
  let currentCoalitionIDs := ctx.newCoalitions.map (fun c => c.coalitionID)
  let st := ctx.metricsState
  -- exit detection over the tracked PIDs (Go ranges over the map's keys;
  -- the embedding walks them in list order, and no proved statement
  -- depends on that order)
  let st := (st.lastSeenPIDs.map (fun p => p.1)).foldl
    (exitDetectStep currentPIDs currentCoalitionIDs now probe) st
  -- prune ledger entries older than five minutes (lines 317-323)
  let st := { st with recentlyExited :=
    st.recentlyExited.filter (fun p => now - p.lastExitTime < fiveMinutes) }
  -- refresh tracking for the new roster (lines 326-343)
  let st := ctx.newProcesses.foldl (rosterStep now) st
  { ctx with metricsState := st }

/-- The coalition-name bookkeeping loop of `Exit` (lines 202-213): record
a coalition's name the first time its ID is seen (a later name change is
only logged, never applied). -/
def coalNamesStep (s : MetricsState) (c : ProcessCoalition) : MetricsState :=
  match alookup s.coalitionNames c.coalitionID with
  | none => { s with coalitionNames := aset s.coalitionNames c.coalitionID c.name }
  | some _ => s

/-- Go `RunningTasksHandler.Exit` (lines 184-214): finalize the open
coalition, fold in orphans, run liveness tracking, commit the roster, and
record first-seen coalition names. -/
def rtExit (ctx : Ctx) (now : Nat) (probe : Nat → Bool) : Ctx :=
  let ctx :=
    match ctx.currentCoalition with
    | some c => { ctx with newCoalitions := ctx.newCoalitions ++ [c], currentCoalition := none }
    | none => ctx
  let ctx := handleOrphanedSubprocesses ctx
  let ctx := updateProcessTracking ctx now probe
  let st := ctx.metricsState
  let st := { st with processes := ctx.newProcesses, coalitions := ctx.newCoalitions }
  let st := ctx.newCoalitions.foldl coalNamesStep st
  { ctx with metricsState := st }

/-- Feed data lines to the running-tasks handler while it stays in its own
state (the state machine hands every line to the handler until one routes
away, at which point `Exit` fires). -/
def rtFeed (ctx : Ctx) : List String → Ctx
  | [] => ctx
  | l :: ls =>
    match rtProcessLine ctx l with
    | (c, .runningTasks) => rtFeed c ls
    | (c, _) => c

/-- One full running-tasks section: `Enter`, the data lines, then `Exit`
(the commit). Returns the committed metrics state. -/
def runTasksSection (lines : List String) (st : MetricsState) (now : Nat)
    (probe : Nat → Bool) : MetricsState :=
  (rtExit (rtFeed (rtEnter { metricsState := st }) lines) now probe).metricsState

/-! ## Small matching combinators for the field regexes

In every pattern below each character class is disjoint from what follows
it, so RE2 matching coincides with deterministic maximal munch, and
`FindStringSubmatch`'s leftmost match is found by scanning start positions
left to right. -/

def eatLit (pat cs : List Char) : Option (List Char) :=
  if chPrefix pat cs then some (cs.drop pat.length) else none

def eatClass1 (p : Char → Bool) (cs : List Char) : Option (List Char × List Char) :=
  let (a, b) := cs.span p
  if a.isEmpty then none else some (a, b)

def scanFirst {α : Type} (f : List Char → Option α) : List Char → Option α
  | [] => f []
  | c :: cs =>
    match f (c :: cs) with
    | some a => some a
    | none => scanFirst f cs

/-- Match `^CPU (\d+):$` (`cpuInterruptRegex`), returning the digits. -/
def cpuInterruptMatch (line : String) : Option (List Char) :=
  match eatLit (String.data ("CPU ")) line.data with
  | none => none
  | some r =>
    match eatClass1 chIsDigit r with
    | none => none
    | some (ds, r2) => if r2 = [':'] then some ds else none

/-- Match `<label>\s+([0-9.]+)\s+interrupts/sec` at the start of `cs`,
returning the capture (used for `ipiRateRegex`, `timerRateRegex`,
`totalRateRegex`). -/
def rateCaptureAt (label : String) (cs : List Char) : Option (List Char) :=
  (eatLit label.data cs).bind fun r =>
  (eatClass1 reWS r).bind fun w1 =>
  (eatClass1 chIsNum w1.2).bind fun num =>
  (eatClass1 reWS num.2).bind fun w2 =>
  (eatLit (String.data ("interrupts/sec")) w2.2).map fun _ => num.1

def ipiRateCapture (line : String) : Option (List Char) :=
  scanFirst (rateCaptureAt ("|-> IPI:")) line.data

def timerRateCapture (line : String) : Option (List Char) :=
  scanFirst (rateCaptureAt ("|-> TIMER:")) line.data

def totalRateCapture (line : String) : Option (List Char) :=
  scanFirst (rateCaptureAt ("Total IRQ:")) line.data

/-- Match `CPU (\d+)<mid>\s+(\d+)` at the start of `cs` (the old-format
`ipiRegex`/`timerRegex`/`totalRegex`), returning the count capture. -/
def oldCountAt (mid : String) (cs : List Char) : Option (List Char) :=
  (eatLit (String.data ("CPU ")) cs).bind fun r =>
  (eatClass1 chIsDigit r).bind fun cpu =>
  (eatLit mid.data cpu.2).bind fun r2 =>
  (eatClass1 reWS r2).bind fun w =>
  (eatClass1 chIsDigit w.2).map fun cnt => cnt.1

def oldIpiCapture (line : String) : Option (List Char) :=
  scanFirst (oldCountAt (" IPI:")) line.data

def oldTimerCapture (line : String) : Option (List Char) :=
  scanFirst (oldCountAt (" Timer:")) line.data

def oldTotalCapture (line : String) : Option (List Char) :=
  scanFirst (oldCountAt (" Total:")) line.data

/-! ## CPUInterruptsHandler (`handler_cpu_interrupts.go` lines 14-86) -/

/-- Go map-as-set write `AllSeenCPUs[k] = true`. -/
def seenInsert (s : List String) (k : String) : List String :=
  if s.contains k then s else s ++ [k]

/-- Record a new-format rate into one per-CPU map when a CPU is current
(the body shared by the IPI/TIMER/Total IRQ branches, lines 31-59; each
branch also adds into its context accumulator). -/
def recordRate (ctx : Ctx) (capture : Option (List Char))
    (addTotal : Ctx → ℚ → Ctx) (setMap : MetricsState → String → ℚ → MetricsState) : Ctx :=
  match capture with
  | none => ctx
  | some num =>
    match parseQ num with
    | none => ctx
    | some val =>
      let ctx := addTotal ctx val
      if ctx.currentCPU ≠ "" then
        let st := setMap ctx.metricsState ctx.currentCPU val
        { ctx with metricsState :=
          { st with allSeenCPUs := seenInsert st.allSeenCPUs ctx.currentCPU } }
      else ctx

/-- The per-branch accumulator and map writes of `CPUInterruptsHandler`
(lines 31-59), named so the step lemmas can refer to them. -/
def ipiAdd (c : Ctx) (v : ℚ) : Ctx := { c with ipiTotal := c.ipiTotal + v }

def timerAdd (c : Ctx) (v : ℚ) : Ctx := { c with timerTotal := c.timerTotal + v }

def totalAdd (c : Ctx) (v : ℚ) : Ctx := { c with interruptsTotal := c.interruptsTotal + v }

def ipiSet (s : MetricsState) (cpu : String) (v : ℚ) : MetricsState :=
  { s with perCPUIPIs := aset s.perCPUIPIs cpu v }

def timerSet (s : MetricsState) (cpu : String) (v : ℚ) : MetricsState :=
  { s with perCPUTimers := aset s.perCPUTimers cpu v }

def totalSet (s : MetricsState) (cpu : String) (v : ℚ) : MetricsState :=
  { s with perCPUInterrupts := aset s.perCPUInterrupts cpu v }

/-- Go `CPUInterruptsHandler.ProcessLine`. -/
def cpuIntProcessLine (ctx : Ctx) (line : String) : Ctx × PState :=
  if IsSection line then (ctx, .inSample)
  else
    match cpuInterruptMatch line with
    | some ds =>
      let cpu := "CPU" ++ String.mk ds
      let st := ctx.metricsState
      let st := { st with allSeenCPUs := seenInsert st.allSeenCPUs cpu }
      ({ ctx with currentCPU := cpu, metricsState := st }, .cpuInterrupts)
    | none =>
      let ctx := recordRate ctx (ipiRateCapture line) ipiAdd ipiSet
      let ctx := recordRate ctx (timerRateCapture line) timerAdd timerSet
      let ctx := recordRate ctx (totalRateCapture line) totalAdd totalSet
      -- old-format absolute counts only feed the accumulators (lines 61-78)
      let ctx :=
        match (oldIpiCapture line).map parseDigits with
        | some v => { ctx with ipiTotal := ctx.ipiTotal + v }
        | none => ctx
      let ctx :=
        match (oldTimerCapture line).map parseDigits with
        | some v => { ctx with timerTotal := ctx.timerTotal + v }
        | none => ctx
      let ctx :=
        match (oldTotalCapture line).map parseDigits with
        | some v => { ctx with interruptsTotal := ctx.interruptsTotal + v }
        | none => ctx
      (ctx, .cpuInterrupts)

/-! ## WaitingForSampleHandler (`handler_cpu_interrupts.go` lines 92-131) -/

/-- Go `WaitingForSampleHandler.ProcessLine` (lines 108-114). -/
def wfsProcessLine (ctx : Ctx) (line : String) : Ctx × PState :=
  if IsNewSample line then ({ ctx with sampleCount := ctx.sampleCount + 1 }, .inSample)
  else (ctx, .waitingForSample)

/-- Go `WaitingForSampleHandler.Enter` (lines 99-106). -/
def wfsEnter (ctx : Ctx) : Ctx :=
  { ctx with ipiTotal := 0, timerTotal := 0, interruptsTotal := 0,
             currentCPU := "", currentCluster := "" }

/-- The per-CPU zeroing loop of `WaitingForSampleHandler.Exit`
(lines 124-130). -/
def resetCPUStep (s : MetricsState) (cpu : String) : MetricsState :=
  { s with perCPUInterrupts := aset s.perCPUInterrupts cpu 0,
           perCPUIPIs := aset s.perCPUIPIs cpu 0,
           perCPUTimers := aset s.perCPUTimers cpu 0 }

/-- Go `WaitingForSampleHandler.Exit` (lines 116-131): reset the per-sample
collections and zero every previously-seen CPU's per-sample rates. -/
def wfsExit (ctx : Ctx) : Ctx :=
  let ctx := { ctx with newProcesses := [], newCoalitions := [],
                        orphanedSubprocesses := [], currentCoalition := none }
  let st := ctx.metricsState
  let st := st.allSeenCPUs.foldl resetCPUStep st
  { ctx with metricsState := st }

/-! ## Per-CPU interrupt history commit (`parser.go` lines 177-185) -/

/-- The body of the history-commit loop (lines 179-185): missing per-CPU
rates read as 0, the nil-map check in Go amounts to defaulting to the
empty history. -/
def commitCPUStep (s : MetricsState) (cpu : String) : MetricsState :=
  let total := (alookup s.perCPUInterrupts cpu).getD 0
  let h := (alookup s.perCPUInterruptHistory cpu).getD []
  let h2 := AddToHistory h total 30
  { s with perCPUInterruptHistory := aset s.perCPUInterruptHistory cpu h2 }

def commitIRQHistory (st : MetricsState) : MetricsState :=
  st.allSeenCPUs.foldl commitCPUStep st

/-- One parse-and-commit pass restricted to the per-CPU interrupt data
path: the sample marker makes the machine leave WaitingForSample (whose
`Exit` zeroes the per-CPU rates), the interrupt-section lines are handled
by `CPUInterruptsHandler`, and `ParseOutput` then appends one history entry
per all-seen CPU. -/
def irqPass (st : MetricsState) (lines : List String) : MetricsState :=
  let ctx : Ctx := wfsEnter { metricsState := st }
  let ctx := wfsExit ctx
  let ctx := lines.foldl (fun c l => (cpuIntProcessLine c l).1) ctx
  commitIRQHistory ctx.metricsState

/-! ## Frequency classifier (`parser.go` `organizeCPUFrequencies`,
lines 227-342) -/

/-- Go `strconv.Atoi` on a trimmed cluster-key suffix (the generated keys
`E-CPU<n>`/`P-CPU<n>` only carry digit suffixes). -/
def natFromDigits (cs : List Char) : Option Nat :=
  if cs.isEmpty then none
  else if cs.all chIsDigit then some (parseDigits cs) else none

/-- Extract the core number from a cluster-membership key with the given
prefix (`strings.TrimPrefix` + `strconv.Atoi`, lines 250-262). -/
def clusterCore (pre : String) (key : String) : Option Nat :=
  if sHasPrefix key pre then natFromDigits (key.data.drop pre.length) else none

/-- Go's nested-loop exchange sort (lines 266-279 and 286-292) sorts the
collected core numbers ascending; since Go map iteration order is
unspecified, its net effect is exactly the ascending sort of the collected
multiset. -/
def sortCores (l : List Nat) : List Nat := List.insertionSort (· ≤ ·) l

/-- The loop body of the cluster builders: append the core's frequency
(0 when absent from this sample's map) and update the positional per-core
history. -/
def buildStep (freqMap : List (Nat × Nat)) (acc : List Nat × List (Nat × List ℚ))
    (p : Nat × Nat) : List Nat × List (Nat × List ℚ) :=
  let freq := (alookup freqMap p.2).getD 0
  let h := AddToHistory ((alookup acc.2 p.1).getD []) (freq : ℚ) 30
  (acc.1 ++ [freq], aset acc.2 p.1 h)

/-- Build one cluster's frequency list and update its positional per-core
history (lines 295-310 for E, 312-327 for P; the selector picks which
history map the cluster uses). -/
def buildCoreFreqs (cpus : List Nat) (freqMap : List (Nat × Nat))
    (hist : List (Nat × List ℚ)) : List Nat × List (Nat × List ℚ) :=
  (cpus.enum).foldl (buildStep freqMap) ([], hist)

/-- Go `organizeCPUFrequencies`. -/
def organizeCPUFrequencies (st : MetricsState) : MetricsState :=
  if st.allCpuFreq.isEmpty then st
  else
    let hasClusterInfo := st.allSeenCPUs.any
      (fun k => sHasPrefix k ("E-CPU") || sHasPrefix k ("P-CPU"))
    let ecoreCPUs :=
      if hasClusterInfo then
        sortCores (st.allSeenCPUs.filterMap (clusterCore ("E-CPU")))
      else []
    let pcoreCPUs :=
      if hasClusterInfo then
        sortCores (st.allSeenCPUs.filterMap
          (fun k => if sHasPrefix k ("E-CPU") then none else clusterCore ("P-CPU") k))
      else
        -- fallback: no cluster info, categorize all CPUs as P-cores
        sortCores (st.allCpuFreq.map (fun p => p.1))
    let e := buildCoreFreqs ecoreCPUs st.allCpuFreq st.eCoreFreqHistory
    let p := buildCoreFreqs pcoreCPUs st.allCpuFreq st.pCoreFreqHistory
    let st : MetricsState := { st with eCoreFreq := e.1, eCoreFreqHistory := e.2,
                                       pCoreFreq := p.1, pCoreFreqHistory := p.2 }
    let st2 : MetricsState := if st.eCoreFreq.length > st.maxECores
      then { st with maxECores := st.eCoreFreq.length } else st
    if st2.pCoreFreq.length > st2.maxPCores
      then { st2 with maxPCores := st2.pCoreFreq.length } else st2

/-! ## Field-pattern matchers for the InSample router (`parser.go` regex
library, `handler_insample.go`)

A token sequence stands for one regex; in each of them every character
class is disjoint from the token that follows it, so deterministic maximal
munch is exact, and `MatchString` is existence of a match at some start
position. -/

inductive FTok where
  | lit (s : String)
  | alternatives (ss : List String)
  | ws1
  | ws0
  | num1
  | digits1
  | digits0
  | word1
  | notColon1

def ftokSeqAt : List FTok → List Char → Bool
  | [], _ => true
  | .lit s :: ts, cs =>
    match eatLit s.data cs with
    | some r => ftokSeqAt ts r
    | none => false
  | .alternatives ss :: ts, cs =>
    ss.any (fun s => chPrefix s.data cs && ftokSeqAt ts (cs.drop s.data.length))
  | .ws1 :: ts, cs =>
    match eatClass1 reWS cs with
    | some p => ftokSeqAt ts p.2
    | none => false
  | .ws0 :: ts, cs => ftokSeqAt ts (cs.span reWS).2
  | .num1 :: ts, cs =>
    match eatClass1 chIsNum cs with
    | some p => ftokSeqAt ts p.2
    | none => false
  | .digits1 :: ts, cs =>
    match eatClass1 chIsDigit cs with
    | some p => ftokSeqAt ts p.2
    | none => false
  | .digits0 :: ts, cs => ftokSeqAt ts (cs.span chIsDigit).2
  | .word1 :: ts, cs =>
    match eatClass1 chIsWord cs with
    | some p => ftokSeqAt ts p.2
    | none => false
  | .notColon1 :: ts, cs =>
    match eatClass1 (fun c => c ≠ ':') cs with
    | some p => ftokSeqAt ts p.2
    | none => false

def ftokContains (ts : List FTok) (line : String) : Bool :=
  (scanFirst (fun cs => if ftokSeqAt ts cs then some () else none) line.data).isSome

/-- `(?:CPU Power|CPU Energy|Combined Power \(CPU\)):\s+([0-9.]+)\s*mW`. -/
def cpuPowerMatch (line : String) : Bool :=
  ftokContains [.alternatives ["CPU Power", "CPU Energy", "Combined Power (CPU)"],
    .lit (":"), .ws1, .num1, .ws0, .lit ("mW")] line

def gpuPowerMatch (line : String) : Bool :=
  ftokContains [.alternatives ["GPU Power", "GPU Energy", "Combined Power (GPU)"],
    .lit (":"), .ws1, .num1, .ws0, .lit ("mW")] line

def anePowerMatch (line : String) : Bool :=
  ftokContains [.alternatives ["ANE Power", "ANE Energy", "Combined Power (ANE)"],
    .lit (":"), .ws1, .num1, .ws0, .lit ("mW")] line

def dramPowerMatch (line : String) : Bool :=
  ftokContains [.alternatives ["DRAM Power", "DRAM Energy", "Combined Power (DRAM)"],
    .lit (":"), .ws1, .num1, .ws0, .lit ("mW")] line

/-- `(?:Combined Power|System Power|System Average).*?:\s+([0-9.]+)\s*(?:mW|Watts)`:
one of the labels, then (lazily) any characters up to a colon-value-unit
tail. The labels contain no colon, so the tail starts at or after the label
end. -/
def systemPowerMatch (line : String) : Bool :=
  (scanFirst
    (fun cs =>
      if ["Combined Power", "System Power", "System Average"].any (fun a =>
          chPrefix a.data cs &&
          (scanFirst
            (fun ds => if ftokSeqAt [.lit (":"), .ws1, .num1, .ws0,
                .alternatives ["mW", "Watts"]] ds then some () else none)
            (cs.drop a.data.length)).isSome)
      then some () else none)
    line.data).isSome

/-- `E-Cluster HW active frequency:\s+([0-9]+)\s*MHz`. -/
def ecoreFreqMatch (line : String) : Bool :=
  ftokContains [.lit ("E-Cluster HW active frequency:"), .ws1, .digits1, .ws0,
    .lit ("MHz")] line

/-- `P\d*-Cluster HW active frequency:\s+([0-9]+)\s*MHz`. -/
def pcoreFreqMatch (line : String) : Bool :=
  ftokContains [.lit ("P"), .digits0, .lit ("-Cluster HW active frequency:"), .ws1,
    .digits1, .ws0, .lit ("MHz")] line

/-- `(?:GPU HW active frequency|GPU active frequency|GPU frequency):\s+([0-9]+)\s*MHz`. -/
def gpuFreqMatch (line : String) : Bool :=
  ftokContains [.alternatives ["GPU HW active frequency", "GPU active frequency",
    "GPU frequency"], .lit (":"), .ws1, .digits1, .ws0, .lit ("MHz")] line

/-- `CPU (\d+) frequency:\s+([0-9]+)\s*MHz`. -/
def cpuFreqMatch (line : String) : Bool :=
  ftokContains [.lit ("CPU "), .digits1, .lit (" frequency:"), .ws1, .digits1, .ws0,
    .lit ("MHz")] line

/-- `in:\s+[0-9.]+\s+packets/s,\s+([0-9.]+)\s+bytes/s`. -/
def networkInMatch (line : String) : Bool :=
  ftokContains [.lit ("in:"), .ws1, .num1, .ws1, .lit ("packets/s,"), .ws1, .num1,
    .ws1, .lit ("bytes/s")] line

def networkOutMatch (line : String) : Bool :=
  ftokContains [.lit ("out:"), .ws1, .num1, .ws1, .lit ("packets/s,"), .ws1, .num1,
    .ws1, .lit ("bytes/s")] line

/-- `read:\s+[0-9.]+\s+ops/s\s+([0-9.]+)\s+KBytes/s`. -/
def diskReadMatch (line : String) : Bool :=
  ftokContains [.lit ("read:"), .ws1, .num1, .ws1, .lit ("ops/s"), .ws1, .num1,
    .ws1, .lit ("KBytes/s")] line

def diskWriteMatch (line : String) : Bool :=
  ftokContains [.lit ("write:"), .ws1, .num1, .ws1, .lit ("ops/s"), .ws1, .num1,
    .ws1, .lit ("KBytes/s")] line

/-- `(?:Memory Used|Physical Memory Used):\s+([0-9.]+)\s*(?:MB|GB)`. -/
def memoryUsedMatch (line : String) : Bool :=
  ftokContains [.alternatives ["Memory Used", "Physical Memory Used"], .lit (":"),
    .ws1, .num1, .ws0, .alternatives ["MB", "GB"]] line

def memoryAvailMatch (line : String) : Bool :=
  ftokContains [.alternatives ["Memory Available", "Physical Memory Available"],
    .lit (":"), .ws1, .num1, .ws0, .alternatives ["MB", "GB"]] line

def swapUsedMatch (line : String) : Bool :=
  ftokContains [.alternatives ["Swap Used", "VM Swap Used"], .lit (":"), .ws1,
    .num1, .ws0, .alternatives ["MB", "GB"]] line

/-- `Current pressure level:\s+(\w+)`. -/
def thermalMatch (line : String) : Bool :=
  ftokContains [.lit ("Current pressure level:"), .ws1, .word1] line

/-- `([^:]+):\s+([0-9.]+)\s*(?:C|°C)`. -/
def tempMatch (line : String) : Bool :=
  ftokContains [.notColon1, .lit (":"), .ws1, .num1, .ws0,
    .alternatives ["C", "°C"]] line

/-! ## Section router and state machine (`state_machine.go`, latest
revision) -/

/-- Match `\*+\s*<name>\s*\*+` at the start of `cs` (the section header
patterns, lines 206-217). -/
def starSectionAt (name : List Char) (cs : List Char) : Bool :=
  match eatClass1 (fun c => c = '*') cs with
  | none => false
  | some st1 =>
    match eatLit name ((st1.2.span reWS).2) with
    | none => false
    | some r2 => (eatClass1 (fun c => c = '*') ((r2.span reWS).2)).isSome

def starSection (name : String) (line : String) : Bool :=
  (scanFirst (fun cs => if starSectionAt name.data cs then some () else none)
    line.data).isSome

/-- Go `StateMachine.routeSection` (lines 221-252). -/
def routeSection (line : String) : PState :=
  if starSection ("Processor usage") line then .processorUsage
  else if starSection ("Running tasks") line then .runningTasks
  else if starSection ("Interrupt distribution") line then .cpuInterrupts
  else if starSection ("Network activity") line then .networkIo
  else if starSection ("Disk activity") line then .diskIo
  else if starSection ("Thermal pressure") line then .thermalData
  else if starSection ("System memory") line then .memoryStats
  else if starSection ("Power") line then .powerMetrics
  else if starSection ("Frequency") line then .frequencies
  else if starSection ("GPU usage") line then .gpuUsage
  else if starSection ("Battery and backlight usage") line then .battery
  else if starSection ("Selective Forced Idle") line then .sfi
  else .inSample

/-- Go `InSampleHandler.ProcessLine` (`handler_insample.go`), state
component. Its data effects (current CPU / cluster bookkeeping) touch no
claim and are modelled with the dedicated handlers. -/
def inSampleNext (line : String) : PState :=
  if IsRunningTasks line then .runningTasks
  else if IsSection line then .inSample
  else if (cpuInterruptMatch line).isSome then .cpuInterrupts
  else if cpuPowerMatch line || gpuPowerMatch line || anePowerMatch line ||
      dramPowerMatch line || systemPowerMatch line then .powerMetrics
  else if ecoreFreqMatch line || pcoreFreqMatch line || gpuFreqMatch line ||
      cpuFreqMatch line then .frequencies
  else if networkInMatch line || networkOutMatch line then .networkIo
  else if diskReadMatch line || diskWriteMatch line then .diskIo
  else if memoryUsedMatch line || memoryAvailMatch line || swapUsedMatch line then
    .memoryStats
  else if thermalMatch line || tempMatch line then .thermalData
  else .inSample

/-- Go `RunningTasksHandler.ProcessLine`, state component (every data or
skipped line stays in `runningTasks`). -/
def rtNext (line : String) : PState :=
  if IsNewSample line then .waitingForSample
  else if IsEndOfTasks line then .inSample
  else if IsSection line && !IsRunningTasks line then .inSample
  else .runningTasks

/-- Go `ErrorHandler.ProcessLine` (`handler_error.go` lines 17-25). -/
def errorNext (line : String) : PState :=
  if IsNewSample line then .waitingForSample else .errorState

/-- Modelled from the spec: `NetworkIOHandler` is registered in
`NewStateMachine` but its implementation is not among the source files
(only registrations and the regex library reference it); per spec §4.1 a
per-section handler consumes field lines and stays in its state, routing
out on exit conditions exactly like its sibling `DiskIOHandler`. -/
def networkIoNext (line : String) : PState :=
  if IsNewSample line then .waitingForSample
  else if IsSection line then .inSample
  else .networkIo

/-- The handler table built by `NewStateMachine` (lines 144-159): the
next-state function of each registered handler, `none` for the two states
with no registered handler (`tasksCoalition`, `tasksSubprocess`). -/
def handlers : PState → Option (String → PState)
  | .waitingForSample => some (fun line => if IsNewSample line then .inSample else .waitingForSample)
  | .inSample => some inSampleNext
  | .processorUsage => some (fun line => if IsSection line then .inSample else .processorUsage)
  | .cpuInterrupts => some (fun line => if IsSection line then .inSample else .cpuInterrupts)
  | .powerMetrics => some (fun line => if IsNewSample line then .waitingForSample
      else if IsSection line then .inSample else .powerMetrics)
  | .frequencies => some (fun line => if IsNewSample line then .waitingForSample
      else if IsSection line then .inSample else .frequencies)
  | .networkIo => some networkIoNext
  | .diskIo => some (fun line => if IsNewSample line then .waitingForSample
      else if IsSection line then .inSample else .diskIo)
  | .memoryStats => some (fun line => if IsNewSample line then .waitingForSample
      else if IsSection line then .inSample else .memoryStats)
  | .thermalData => some (fun line => if IsSection line then .inSample else .thermalData)
  | .gpuUsage => some (fun line => if IsSection line then .inSample else .gpuUsage)
  | .battery => some (fun line => if IsSection line then .inSample else .battery)
  | .sfi => some (fun line => if IsSection line then .inSample else .sfi)
  | .runningTasks => some rtNext
  | .errorState => some errorNext
  | .tasksCoalition => none
  | .tasksSubprocess => none

/-- The global new-sample check at the top of `StateMachine.ProcessLine`
(lines 171-175): a sample marker forces WaitingForSample from any other
state before anything else happens. -/
def smGlobalCheck (s : PState) (line : String) : PState :=
  if s ≠ .waitingForSample && IsNewSample line then .waitingForSample else s

/-- The section-routing guard (line 178): routing only applies outside
WaitingForSample and only to section-boundary lines. -/
def smRouteGuard (s : PState) (line : String) : Bool :=
  s ≠ .waitingForSample && IsSection line

/-- Handler lookup and dispatch (lines 187-201): a missing handler is
reported as an error (`true`) and leaves the state unchanged. -/
def smDispatch (s : PState) (line : String) : Bool × PState :=
  match handlers s with
  | none => (true, s)
  | some h => (false, h line)

/-- Go `StateMachine.ProcessLine` (lines 170-202), state component: returns
(whether a structural error was reported, the state after the line). -/
def smStep (s : PState) (line : String) : Bool × PState :=
  let s1 := smGlobalCheck s line
  if smRouteGuard s1 line then
    let next := routeSection line
    if next ≠ s1 then (false, next) else smDispatch s1 line
  else smDispatch s1 line

/-- A liveness-probe oracle under which `ps -p` always succeeds. -/
def probeAlive : Nat → Bool := fun _ => true

/-- A liveness-probe oracle under which `ps -p` always fails. -/
def probeDead : Nat → Bool := fun _ => false

/-- Well-formedness of the exited ledger: each entry's occurrence count
matches its PID list, which carries no duplicates. -/
def LedgerWF (l : List ExitedProcessInfo) : Prop :=
  ∀ e ∈ l, e.occurrences = e.pids.length ∧ e.pids.Nodup

/-- No ledger entry has an empty PID list. -/
def LedgerNE (l : List ExitedProcessInfo) : Prop := ∀ e ∈ l, e.pids ≠ []

def c10entry : ExitedProcessInfo :=
  { name := "x", pids := [9], occurrences := 1, lastExitTime := 0, firstSeenTime := 0 }

def c10st : MetricsState := { recentlyExited := [c10entry] }

def c3entry : ExitedProcessInfo :=
  { name := "Tab", pids := [202], occurrences := 1, lastExitTime := 5, firstSeenTime := 1 }

def c3st : MetricsState := { recentlyExited := [c3entry] }

def c5orphan : ProcessInfo :=
  { pid := 7, name := "w", coalitionName := "", cpuPercent := 0, memoryMB := 0,
    diskMB := 0, networkMB := 0, cpuHistory := [], memoryHistory := [] }

def c5ctx : Ctx := { orphanedSubprocesses := [c5orphan] }

/-! ## Helper views of `updateProcessTracking` and concrete instances for
the liveness-probe claim -/

/-- The five-minute ledger prune of `updateProcessTracking` (lines 317-323)
as a standalone function. -/
def prunedLedger (now : Nat) (l : List ExitedProcessInfo) : List ExitedProcessInfo :=
  l.filter (fun p => now - p.lastExitTime < fiveMinutes)

/-- The exit-detection fold of `updateProcessTracking` (lines 271-313) as a
standalone function of the handler context. -/
def exitPhase (ctx : Ctx) (now : Nat) (probe : Nat → Bool) : MetricsState :=
  (ctx.metricsState.lastSeenPIDs.map (fun p => p.1)).foldl
    (exitDetectStep (ctx.newProcesses.map (fun p => p.pid))
      (ctx.newCoalitions.map (fun c => c.coalitionID)) now probe) ctx.metricsState

/-- The prune stage applied to a whole state. -/
def prunePhase (now : Nat) (st : MetricsState) : MetricsState :=
  { st with recentlyExited := prunedLedger now st.recentlyExited }

/-- A committed coalition whose numeric ID collides with a tracked PID. -/
def c4coal : ProcessCoalition :=
  { coalitionID := 5, name := "C", cpuPercent := 0, memoryMB := 0, diskMB := 0,
    networkMB := 0, subprocesses := [], cpuHistory := [], memoryHistory := [] }

/-- Tracking state: PID 5 was last seen at time 10 under the name "A". -/
def c4st : MetricsState := { lastSeenPIDs := [(5, 10)], processNames := [(5, "A")] }

/-- A sample that commits no processes but commits the coalition with ID 5. -/
def c4ctx : Ctx := { metricsState := c4st, newCoalitions := [c4coal] }

/-- Tracking state: PID 7 was last seen at time 3 under the name "Gone". -/
def c4wst : MetricsState := { lastSeenPIDs := [(7, 3)], processNames := [(7, "Gone")] }

/-- A sample that commits nothing while PID 7 is tracked. -/
def c4wctx : Ctx := { metricsState := c4wst }

/-! ## Helper views for the per-CPU interrupt-history claim -/

/-- The metrics state at commit time: the state after `WaitingForSample`
Enter/Exit and the interrupt-section lines, before the history commit. -/
def irqMid (st : MetricsState) (lines : List String) : MetricsState :=
  (lines.foldl (fun c l => (cpuIntProcessLine c l).1)
    (wfsExit (wfsEnter { metricsState := st }))).metricsState

/-- The CPU labels named by `CPU <n>:` header lines in a section (the only
lines that can make a CPU current, hence receive rate writes). -/
def headerCPUs (lines : List String) : List String :=
  lines.filterMap (fun l => (cpuInterruptMatch l).map (fun ds => "CPU" ++ String.mk ds))

/-- First pass of the history counterexample: only CPU 0 reports. -/
def c6lines1 : List String := ["CPU 0:", "Total IRQ: 100.5 interrupts/sec"]

/-- Second pass: CPU 1 appears for the first time. -/
def c6lines2 : List String :=
  ["CPU 0:", "Total IRQ: 100.5 interrupts/sec", "CPU 1:", "Total IRQ: 50.0 interrupts/sec"]

def c6st1 : MetricsState := irqPass emptyMetricsState c6lines1

def c6st2 : MetricsState := irqPass c6st1 c6lines2

/-- A state in which CPU 0 has been seen and has one history entry. -/
def c6wst : MetricsState :=
  { allSeenCPUs := ["CPU0"], perCPUInterruptHistory := [("CPU0", [(3 : ℚ)])] }

/-- A pass in which only CPU 1 reports, leaving CPU 0 silent. -/
def c6wlines : List String := ["CPU 1:", "Total IRQ: 50.0 interrupts/sec"]

/-- The efficiency-core selection of `organizeCPUFrequencies` (lines
246-283) as a standalone view. -/
def eClusterCPUs (st : MetricsState) : List Nat :=
  if st.allSeenCPUs.any (fun k => sHasPrefix k ("E-CPU") || sHasPrefix k ("P-CPU"))
  then sortCores (st.allSeenCPUs.filterMap (clusterCore ("E-CPU")))
  else []

/-- The performance-core selection, with the no-marker fallback taking all
cores from the observed frequency map. -/
def pClusterCPUs (st : MetricsState) : List Nat :=
  if st.allSeenCPUs.any (fun k => sHasPrefix k ("E-CPU") || sHasPrefix k ("P-CPU"))
  then sortCores (st.allSeenCPUs.filterMap
    (fun k => if sHasPrefix k ("E-CPU") then none else clusterCore ("P-CPU") k))
  else sortCores (st.allCpuFreq.map (fun p => p.1))

/-- Non-hybrid sample: no cluster markers, frequencies for cores 1 and 0. -/
def c7stA : MetricsState :=
  { allSeenCPUs := ["CPU0", "CPU1"], allCpuFreq := [(1, 1200), (0, 1000)] }

/-- Efficiency-only sample: two E markers, a frequency only for core 0. -/
def c7stB : MetricsState :=
  { allSeenCPUs := ["E-CPU0", "E-CPU1"], allCpuFreq := [(0, 600)] }

/-! # Claim theorems -/

/-- C1 (code-bug evaluation): the claim states that every committed
ProcessInfo's coalition name equals the name of some committed coalition or
the `"<orphaned>"` sentinel. Feeding one orphaned subprocess line (a
Running-tasks section whose only data line is indented, with no coalition
header) commits the process twice: once with coalition name `""` — which
matches no committed coalition and is not the sentinel — and once with the
sentinel. -/
theorem C1_orphan_breaks_coalition_resolution :
    (((runTasksSection ["  orphan 42 5.0 1.0"] emptyMetricsState 1000 probeAlive).processes).map
        (fun p => (p.pid, p.name, p.coalitionName)))
      = [(42, "orphan", ""), (42, "orphan", "<orphaned>")] ∧
    (runTasksSection ["  orphan 42 5.0 1.0"] emptyMetricsState 1000 probeAlive).coalitions = [] ∧
    ∃ p ∈ (runTasksSection ["  orphan 42 5.0 1.0"] emptyMetricsState 1000 probeAlive).processes,
      p.coalitionName ≠ "<orphaned>" ∧
      ∀ c ∈ (runTasksSection ["  orphan 42 5.0 1.0"] emptyMetricsState 1000 probeAlive).coalitions,
        c.name ≠ p.coalitionName := by
  decide

/-- C2 (code-bug evaluation): the claim (and the repository's own
`TestDeadProcessesParsing`) states that a Running-tasks entry with an empty
name field never enters the committed live lists and is recorded in the
exited ledger under a synthesized `"Unknown Process (PID n)"` name. Feeding
the empty-named PID 53571 line, the code commits it to the live process
list (and to the open coalition's subprocess list) with name `""` and
records nothing in the exited ledger; no code path synthesizes an
`"Unknown Process"` name. -/
theorem C2_empty_name_enters_live_roster :
    (∃ p ∈ (runTasksSection ["SomeApp 100 1.0 1.0", "     53571   0.00   111.57"]
        emptyMetricsState 1000 probeAlive).processes, p.pid = 53571 ∧ p.name = "") ∧
    (runTasksSection ["SomeApp 100 1.0 1.0", "     53571   0.00   111.57"]
        emptyMetricsState 1000 probeAlive).recentlyExited = [] := by
  decide

/-- C8: in every parser state other than WaitingForSample, a line matching
the new-sample marker forces the pre-routing state to WaitingForSample and
disables section routing (the line is then consumed by the
WaitingForSample handler, which advances to InSample); and in
WaitingForSample every non-marker line is discarded, leaving the state and
the context (hence the metrics state) unchanged. -/
theorem C8_new_sample_preempts_routing_and_wfs_discards :
    (∀ (s : PState) (line : String), s ≠ PState.waitingForSample → IsNewSample line = true →
      smGlobalCheck s line = PState.waitingForSample ∧
      smRouteGuard (smGlobalCheck s line) line = false ∧
      smStep s line = (false, PState.inSample)) ∧
    (∀ (ctx : Ctx) (line : String), IsNewSample line = false →
      smStep PState.waitingForSample line = (false, PState.waitingForSample) ∧
      wfsProcessLine ctx line = (ctx, PState.waitingForSample)) := by
  constructor
  · intro s line hs hline
    have h1 : smGlobalCheck s line = PState.waitingForSample := by
      simp [smGlobalCheck, hs, hline]
    refine ⟨h1, ?_, ?_⟩
    · simp [smRouteGuard, h1]
    · simp [smStep, h1, smRouteGuard, smDispatch, handlers, hline]
  · intro ctx line hline
    constructor
    · simp [smStep, smGlobalCheck, smRouteGuard, smDispatch, handlers, hline]
    · simp [wfsProcessLine, hline]

/-- C8 witness: the theorem applied at the PowerMetrics state with a
concrete marker line, and at WaitingForSample with a concrete junk line. -/
theorem C8_witness :
    (smGlobalCheck PState.powerMetrics "*** Sampled system activity ***"
        = PState.waitingForSample ∧
      smRouteGuard (smGlobalCheck PState.powerMetrics "*** Sampled system activity ***")
        "*** Sampled system activity ***" = false ∧
      smStep PState.powerMetrics "*** Sampled system activity ***"
        = (false, PState.inSample)) ∧
    (smStep PState.waitingForSample "junk" = (false, PState.waitingForSample) ∧
      wfsProcessLine {} "junk" = ({}, PState.waitingForSample)) :=
  ⟨C8_new_sample_preempts_routing_and_wfs_discards.1 PState.powerMetrics
      "*** Sampled system activity ***" (by decide) (by decide),
    C8_new_sample_preempts_routing_and_wfs_discards.2 {} "junk" (by decide)⟩

/-- C9 counterexample: the claim states that a line processed in a state
with no registered handler makes the machine fall into the Error state.
TasksCoalition has no registered handler, yet processing a line there
reports the error and leaves the machine in TasksCoalition, not Error. -/
theorem C9_counterexample :
    handlers PState.tasksCoalition = none ∧
    smStep PState.tasksCoalition "coalition data line" = (true, PState.tasksCoalition) ∧
    PState.tasksCoalition ≠ PState.errorState :=
  ⟨rfl, by decide, by decide⟩

theorem ite_ne_of {α : Type} {c : Prop} [Decidable c] {a b x : α}
    (ha : a ≠ x) (hb : b ≠ x) : (if c then a else b) ≠ x := by
  by_cases h : c
  · simpa [h]
  · simpa [h]

theorem routeSection_ne_errorState (line : String) : routeSection line ≠ PState.errorState := by
  unfold routeSection
  refine ite_ne_of (by decide) (ite_ne_of (by decide) (ite_ne_of (by decide)
    (ite_ne_of (by decide) (ite_ne_of (by decide) (ite_ne_of (by decide)
    (ite_ne_of (by decide) (ite_ne_of (by decide) (ite_ne_of (by decide)
    (ite_ne_of (by decide) (ite_ne_of (by decide) (ite_ne_of (by decide)
    (by decide))))))))))))

/-- C9 amended: a line that is neither a sample marker nor a section
boundary, processed in a state with no registered handler, is reported as
a structural error and leaves the machine in that same state (it does not
enter Error); the Error state is left when a new-sample marker forces
WaitingForSample, when a section-boundary line routes to a section
handler, and in no other way (any other line keeps the machine in Error). -/
theorem C9_amended_unroutable_error_and_recovery :
    (∀ (s : PState) (line : String), handlers s = none →
      IsNewSample line = false → IsSection line = false →
      smStep s line = (true, s)) ∧
    (∀ line : String, IsNewSample line = true →
      smGlobalCheck PState.errorState line = PState.waitingForSample ∧
      smStep PState.errorState line = (false, PState.inSample)) ∧
    (∀ line : String, IsNewSample line = false → IsSection line = true →
      smStep PState.errorState line = (false, routeSection line)) ∧
    (∀ line : String, IsNewSample line = false → IsSection line = false →
      smStep PState.errorState line = (false, PState.errorState)) := by
  refine ⟨?_, ?_, ?_, ?_⟩
  · intro s line hnone hm hs
    simp [smStep, smGlobalCheck, smRouteGuard, smDispatch, hnone, hm, hs]
  · intro line hm
    constructor
    · simp [smGlobalCheck, hm]
    · simp [smStep, smGlobalCheck, smRouteGuard, smDispatch, handlers, hm]
  · intro line hm hs
    have hne := routeSection_ne_errorState line
    simp [smStep, smGlobalCheck, smRouteGuard, hm, hs, hne]
  · intro line hm hs
    simp [smStep, smGlobalCheck, smRouteGuard, smDispatch, handlers, errorNext, hm, hs]

theorem orphStep_newProcesses (ctx : Ctx) (o : ProcessInfo) :
    ∃ p, (orphStep ctx o).newProcesses = ctx.newProcesses ++ [p] ∧
      p.pid = o.pid ∧ p.name = o.name ∧ p.coalitionName = "<orphaned>" :=
  ⟨_, rfl, rfl, rfl, rfl⟩

theorem foldl_orphStep_mem_preserved (l : List ProcessInfo) (ctx : Ctx) (p : ProcessInfo)
    (h : p ∈ ctx.newProcesses) : p ∈ (l.foldl orphStep ctx).newProcesses := by
  induction l generalizing ctx with
  | nil => simpa using h
  | cons hd tl ih =>
    rw [List.foldl_cons]
    obtain ⟨q, he, -, -, -⟩ := orphStep_newProcesses ctx hd
    exact ih _ (by rw [he]; exact List.mem_append_left _ h)

theorem foldl_orphStep_commits (l : List ProcessInfo) (ctx : Ctx) (o : ProcessInfo)
    (h : o ∈ l) : ∃ p ∈ (l.foldl orphStep ctx).newProcesses,
      p.pid = o.pid ∧ p.name = o.name ∧ p.coalitionName = "<orphaned>" := by
  induction l generalizing ctx with
  | nil => cases h
  | cons hd tl ih =>
    rw [List.foldl_cons]
    rcases List.mem_cons.mp h with h | h
    · subst h
      obtain ⟨q, he, h1, h2, h3⟩ := orphStep_newProcesses ctx o
      refine ⟨q, foldl_orphStep_mem_preserved tl _ q ?_, h1, h2, h3⟩
      rw [he]
      exact List.mem_append_right _ (List.mem_singleton.mpr rfl)
    · exact ih _ h

theorem updateProcessTracking_newProcesses (ctx : Ctx) (now : Nat) (probe : Nat → Bool) :
    (updateProcessTracking ctx now probe).newProcesses = ctx.newProcesses := rfl

theorem foldl_coalNamesStep_processes (l : List ProcessCoalition) (st : MetricsState) :
    (l.foldl coalNamesStep st).processes = st.processes := by
  induction l generalizing st with
  | nil => rfl
  | cons hd tl ih =>
    rw [List.foldl_cons, ih]
    unfold coalNamesStep
    cases alookup st.coalitionNames hd.coalitionID <;> rfl

theorem handleOrphanedSubprocesses_eq (ctx : Ctx) :
    handleOrphanedSubprocesses ctx = ctx.orphanedSubprocesses.foldl orphStep ctx := rfl

/-- The committed process list produced by `Exit` is exactly the flat new
roster after orphan handling. -/
theorem rtExit_processes_eq (ctx : Ctx) (now : Nat) (probe : Nat → Bool) :
    (rtExit ctx now probe).metricsState.processes =
      (handleOrphanedSubprocesses
        (match ctx.currentCoalition with
          | some c => { ctx with newCoalitions := ctx.newCoalitions ++ [c],
                                 currentCoalition := none }
          | none => ctx)).newProcesses := by
  unfold rtExit
  cases hc : ctx.currentCoalition <;>
    simp [hc, foldl_coalNamesStep_processes, updateProcessTracking_newProcesses]

/-- C5: a subprocess data line arriving with no open coalition is buffered
as orphaned (with an empty coalition name); and at section exit every
buffered orphan for which no committed coalition shares its coalition name
is committed to the live process list tagged with the orphan sentinel
rather than dropped. (In the source the name→coalition fold map is built
but never queried; the sentinel tagging is unconditional, which satisfies
the claim's conditional.) -/
theorem C5_orphans_buffered_then_committed_with_sentinel :
    (∀ (ctx : Ctx) (line : String) g1 g2 g3 g4,
      ctx.currentCoalition = none →
      IsNewSample line = false → IsEndOfTasks line = false →
      (IsSection line && !IsRunningTasks line) = false →
      (IsTasksHeader line || sContains line ("----") || sTrim line = "") = false →
      sContains line ("DEAD_TASKS") = false →
      procMatch line = some (g1, g2, g3, g4) →
      IsIndented line = true →
      ∃ sp, (rtProcessLine ctx line).1.orphanedSubprocesses
          = ctx.orphanedSubprocesses ++ [sp] ∧
        sp.pid = parseDigits g2 ∧ sp.name = sTrim (String.mk g1) ∧
        sp.coalitionName = "") ∧
    (∀ (ctx : Ctx) (now : Nat) (probe : Nat → Bool) (o : ProcessInfo),
      o ∈ ctx.orphanedSubprocesses →
      (∀ c ∈ (rtExit ctx now probe).metricsState.coalitions, c.name ≠ o.coalitionName) →
      ∃ p ∈ (rtExit ctx now probe).metricsState.processes,
        p.pid = o.pid ∧ p.name = o.name ∧ p.coalitionName = "<orphaned>") := by
  constructor
  · intro ctx line g1 g2 g3 g4 hcoal hm he hsec hhdr hdead hpm hind
    unfold rtProcessLine
    rw [hm, he, hsec, hhdr, hdead, hpm, hind]
    simp only [Bool.false_eq_true, if_false, if_true]
    unfold handleSubprocess
    rw [hcoal]
    exact ⟨_, rfl, rfl, rfl, rfl⟩
  · intro ctx now probe o ho _hnomatch
    rw [rtExit_processes_eq]
    cases hc : ctx.currentCoalition with
    | none => exact foldl_orphStep_commits _ _ o ho
    | some c => exact foldl_orphStep_commits _ _ o ho

/-- C5 witness: the theorem applied to a concrete orphaned subprocess line
and a concrete context holding one buffered orphan. -/
theorem C5_witness :
    (∃ sp, (rtProcessLine {} "  orphan 42 5.0 1.0").1.orphanedSubprocesses = [] ++ [sp] ∧
      sp.pid = parseDigits ['4', '2'] ∧
      sp.name = sTrim (String.mk [' ', ' ', 'o', 'r', 'p', 'h', 'a', 'n']) ∧
      sp.coalitionName = "") ∧
    (∃ p ∈ (rtExit c5ctx 1000 probeAlive).metricsState.processes,
      p.pid = c5orphan.pid ∧ p.name = c5orphan.name ∧ p.coalitionName = "<orphaned>") :=
  ⟨C5_orphans_buffered_then_committed_with_sentinel.1 {} "  orphan 42 5.0 1.0"
      [' ', ' ', 'o', 'r', 'p', 'h', 'a', 'n'] ['4', '2'] ['5', '.', '0'] ['1', '.', '0']
      rfl (by decide) (by decide) (by decide) (by decide) (by decide) (by decide) (by decide),
    C5_orphans_buffered_then_committed_with_sentinel.2 c5ctx 1000 probeAlive c5orphan
      (by decide) (by decide)⟩


/-- C9 amended witness: the amended theorem applied at concrete lines in
TasksSubprocess and Error. -/
theorem C9_amended_witness :
    smStep PState.tasksSubprocess "subprocess data line" = (true, PState.tasksSubprocess) ∧
    smStep PState.errorState "*** Sampled system activity ***" = (false, PState.inSample) ∧
    smStep PState.errorState "*** Power ***" = (false, routeSection "*** Power ***") ∧
    smStep PState.errorState "garbage" = (false, PState.errorState) :=
  ⟨C9_amended_unroutable_error_and_recovery.1 PState.tasksSubprocess "subprocess data line"
      rfl (by decide) (by decide),
    (C9_amended_unroutable_error_and_recovery.2.1 "*** Sampled system activity ***" (by decide)).2,
    C9_amended_unroutable_error_and_recovery.2.2.1 "*** Power ***" (by decide) (by decide),
    C9_amended_unroutable_error_and_recovery.2.2.2 "garbage" (by decide) (by decide)⟩

theorem removeFirst_sublist (pid : Nat) :
    ∀ (l l' : List Nat), removeFirst pid l = some l' → l'.Sublist l := by
  intro l
  induction l with
  | nil => intro l' h; simp [removeFirst] at h
  | cons hd tl ih =>
    intro l' h
    unfold removeFirst at h
    by_cases hh : hd = pid
    · rw [if_pos hh] at h
      cases h
      exact List.sublist_cons_self hd tl
    · rw [if_neg hh] at h
      cases hr : removeFirst pid tl with
      | none => rw [hr] at h; cases h
      | some tl' =>
        rw [hr] at h
        cases h
        exact List.Sublist.cons₂ hd (ih tl' hr)

theorem removeFirst_none_iff (pid : Nat) (l : List Nat) :
    removeFirst pid l = none ↔ pid ∉ l := by
  induction l with
  | nil => simp [removeFirst]
  | cons hd tl ih =>
    unfold removeFirst
    by_cases hh : hd = pid
    · simp [hh]
    · rw [if_neg hh]
      cases hr : removeFirst pid tl with
      | none => simp [hr, ih.mp hr, Ne.symm hh]
      | some tl' =>
        have hmem : pid ∈ tl := by
          by_contra hmem
          rw [ih.mpr hmem] at hr
          cases hr
        simp [hmem]

theorem removeFirst_not_mem_of_nodup (pid : Nat) :
    ∀ (l l' : List Nat), l.Nodup → removeFirst pid l = some l' → pid ∉ l' := by
  intro l
  induction l with
  | nil => intro l' _ h; simp [removeFirst] at h
  | cons hd tl ih =>
    intro l' hn h
    unfold removeFirst at h
    by_cases hh : hd = pid
    · rw [if_pos hh] at h
      cases h
      rw [← hh]
      exact (List.nodup_cons.mp hn).1
    · rw [if_neg hh] at h
      cases hr : removeFirst pid tl with
      | none => rw [hr] at h; cases h
      | some tl' =>
        rw [hr] at h
        cases h
        intro hmem
        rcases List.mem_cons.mp hmem with he | he
        · exact hh he.symm
        · exact ih tl' (List.nodup_cons.mp hn).2 hr he

theorem removeFirst_mem_of_ne (pid q : Nat) (hne : q ≠ pid) :
    ∀ (l l' : List Nat), q ∈ l → removeFirst pid l = some l' → q ∈ l' := by
  intro l
  induction l with
  | nil => intro l' hq _; cases hq
  | cons hd tl ih =>
    intro l' hq h
    unfold removeFirst at h
    by_cases hh : hd = pid
    · rw [if_pos hh] at h
      cases h
      rcases List.mem_cons.mp hq with he | he
      · exact absurd (he.trans hh) hne
      · exact he
    · rw [if_neg hh] at h
      cases hr : removeFirst pid tl with
      | none => rw [hr] at h; cases h
      | some tl' =>
        rw [hr] at h
        cases h
        rcases List.mem_cons.mp hq with he | he
        · exact he ▸ List.mem_cons_self hd tl'
        · exact List.mem_cons_of_mem hd (ih tl' he hr)


theorem removePidFromLedger_mem (pid : Nat) :
    ∀ (l : List ExitedProcessInfo), ∀ e ∈ removePidFromLedger pid l,
      (e ∈ l ∧ removeFirst pid e.pids = none) ∨
      (∃ e0 ∈ l, ∃ pids2, removeFirst pid e0.pids = some pids2 ∧ pids2 ≠ [] ∧
        e = { e0 with pids := pids2, occurrences := pids2.length }) := by
  intro l
  induction l with
  | nil => intro e he; simp [removePidFromLedger] at he
  | cons hd tl ih =>
    intro e he
    unfold removePidFromLedger at he
    cases hr : removeFirst pid hd.pids with
    | none =>
      simp only [hr] at he
      rcases List.mem_cons.mp he with h1 | h1
      · exact Or.inl ⟨h1 ▸ List.mem_cons_self hd tl, h1 ▸ hr⟩
      · rcases ih e h1 with ⟨h2, h3⟩ | ⟨e0, h2, pids2, h3⟩
        · exact Or.inl ⟨List.mem_cons_of_mem hd h2, h3⟩
        · exact Or.inr ⟨e0, List.mem_cons_of_mem hd h2, pids2, h3⟩
    | some pids2 =>
      simp only [hr] at he
      by_cases hemp : pids2.isEmpty
      · rw [if_pos hemp] at he
        rcases ih e he with ⟨h2, h3⟩ | ⟨e0, h2, pids3, h3⟩
        · exact Or.inl ⟨List.mem_cons_of_mem hd h2, h3⟩
        · exact Or.inr ⟨e0, List.mem_cons_of_mem hd h2, pids3, h3⟩
      · rw [if_neg hemp] at he
        rcases List.mem_cons.mp he with h1 | h1
        · refine Or.inr ⟨hd, List.mem_cons_self hd tl, pids2, hr, ?_, h1⟩
          intro hcon
          exact hemp (by simp [hcon])
        · rcases ih e h1 with ⟨h2, h3⟩ | ⟨e0, h2, pids3, h3⟩
          · exact Or.inl ⟨List.mem_cons_of_mem hd h2, h3⟩
          · exact Or.inr ⟨e0, List.mem_cons_of_mem hd h2, pids3, h3⟩

theorem removePidFromLedger_exists_preserved (pid q : Nat) (nm : String) (hne : q ≠ pid) :
    ∀ (l : List ExitedProcessInfo),
      (∃ e ∈ l, q ∈ e.pids ∧ e.name = nm) →
      ∃ e ∈ removePidFromLedger pid l, q ∈ e.pids ∧ e.name = nm := by
  intro l
  induction l with
  | nil => intro h; simp at h
  | cons hd tl ih =>
    intro h
    obtain ⟨e, he, hq, hnm⟩ := h
    rcases List.mem_cons.mp he with h1 | h1
    · subst h1
      cases hr : removeFirst pid e.pids with
      | none =>
        simp only [removePidFromLedger, hr]
        exact ⟨e, List.mem_cons_self _ _, hq, hnm⟩
      | some pids2 =>
        have hq2 : q ∈ pids2 := removeFirst_mem_of_ne pid q hne e.pids pids2 hq hr
        have hemp : ¬ pids2.isEmpty = true := by
          cases pids2 with
          | nil => cases hq2
          | cons a b => simp
        simp only [removePidFromLedger, hr]
        rw [if_neg hemp]
        exact ⟨_, List.mem_cons_self _ _, hq2, hnm⟩
    · cases hr : removeFirst pid hd.pids with
      | none =>
        obtain ⟨e2, he2, hq2, hnm2⟩ := ih ⟨e, h1, hq, hnm⟩
        simp only [removePidFromLedger, hr]
        exact ⟨e2, List.mem_cons_of_mem hd he2, hq2, hnm2⟩
      | some pids2 =>
        obtain ⟨e2, he2, hq2, hnm2⟩ := ih ⟨e, h1, hq, hnm⟩
        simp only [removePidFromLedger, hr]
        by_cases hemp : pids2.isEmpty
        · rw [if_pos hemp]
          exact ⟨e2, he2, hq2, hnm2⟩
        · rw [if_neg hemp]
          exact ⟨e2, List.mem_cons_of_mem _ he2, hq2, hnm2⟩


theorem trackIntoLedger_mem (pid : Nat) (nm : String) (now : Nat) :
    ∀ (l l' : List ExitedProcessInfo), trackIntoLedger pid nm now l = some l' →
      ∀ e ∈ l', e ∈ l ∨
        ∃ e0 ∈ l, e0.name = nm ∧
          ((e = { e0 with lastExitTime := now } ∧ pid ∈ e0.pids) ∨
           (e = { e0 with pids := e0.pids ++ [pid],
                          occurrences := (e0.pids ++ [pid]).length,
                          lastExitTime := now } ∧ pid ∉ e0.pids)) := by
  intro l
  induction l with
  | nil => intro l' h; simp [trackIntoLedger] at h
  | cons hd tl ih =>
    intro l' h e he
    unfold trackIntoLedger at h
    by_cases hn : hd.name = nm
    · rw [if_pos hn] at h
      by_cases hc : hd.pids.contains pid
      · rw [if_pos hc] at h
        cases h
        rcases List.mem_cons.mp he with h1 | h1
        · exact Or.inr ⟨hd, List.mem_cons_self hd tl, hn,
            Or.inl ⟨h1, List.mem_of_elem_eq_true hc⟩⟩
        · exact Or.inl (List.mem_cons_of_mem hd h1)
      · rw [if_neg hc] at h
        cases h
        rcases List.mem_cons.mp he with h1 | h1
        · refine Or.inr ⟨hd, List.mem_cons_self hd tl, hn, Or.inr ⟨h1, ?_⟩⟩
          intro hmem
          exact hc (List.elem_eq_true_of_mem hmem)
        · exact Or.inl (List.mem_cons_of_mem hd h1)
    · rw [if_neg hn] at h
      cases hr : trackIntoLedger pid nm now tl with
      | none => rw [hr] at h; cases h
      | some tl2 =>
        rw [hr] at h
        cases h
        rcases List.mem_cons.mp he with h1 | h1
        · exact Or.inl (h1 ▸ List.mem_cons_self hd tl)
        · rcases ih tl2 hr e h1 with h2 | ⟨e0, h2, h3⟩
          · exact Or.inl (List.mem_cons_of_mem hd h2)
          · exact Or.inr ⟨e0, List.mem_cons_of_mem hd h2, h3⟩

theorem trackIntoLedger_adds (pid : Nat) (nm : String) (now : Nat) :
    ∀ (l l' : List ExitedProcessInfo), trackIntoLedger pid nm now l = some l' →
      ∃ e ∈ l', pid ∈ e.pids ∧ e.name = nm ∧ e.lastExitTime = now := by
  intro l
  induction l with
  | nil => intro l' h; simp [trackIntoLedger] at h
  | cons hd tl ih =>
    intro l' h
    unfold trackIntoLedger at h
    by_cases hn : hd.name = nm
    · rw [if_pos hn] at h
      by_cases hc : hd.pids.contains pid
      · rw [if_pos hc] at h
        cases h
        exact ⟨_, List.mem_cons_self _ _, List.mem_of_elem_eq_true hc, hn, rfl⟩
      · rw [if_neg hc] at h
        cases h
        exact ⟨_, List.mem_cons_self _ _,
          List.mem_append_right _ (List.mem_singleton.mpr rfl), hn, rfl⟩
    · rw [if_neg hn] at h
      cases hr : trackIntoLedger pid nm now tl with
      | none => rw [hr] at h; cases h
      | some tl2 =>
        rw [hr] at h
        cases h
        obtain ⟨e, he, h1, h2, h3⟩ := ih tl2 hr
        exact ⟨e, List.mem_cons_of_mem hd he, h1, h2, h3⟩

theorem trackIntoLedger_exists_preserved (pid : Nat) (nm : String) (now : Nat)
    (P : Nat) (nm0 : String) :
    ∀ (l l' : List ExitedProcessInfo), trackIntoLedger pid nm now l = some l' →
      (∃ e ∈ l, P ∈ e.pids ∧ e.name = nm0 ∧ e.lastExitTime = now) →
      ∃ e ∈ l', P ∈ e.pids ∧ e.name = nm0 ∧ e.lastExitTime = now := by
  intro l
  induction l with
  | nil => intro l' h hex; simp at hex
  | cons hd tl ih =>
    intro l' h hex
    obtain ⟨e, he, hP, hnm0, ht⟩ := hex
    unfold trackIntoLedger at h
    by_cases hn : hd.name = nm
    · rw [if_pos hn] at h
      by_cases hc : hd.pids.contains pid
      · rw [if_pos hc] at h
        cases h
        rcases List.mem_cons.mp he with h1 | h1
        · exact ⟨_, List.mem_cons_self _ _, h1 ▸ hP, h1 ▸ hnm0, rfl⟩
        · exact ⟨e, List.mem_cons_of_mem _ h1, hP, hnm0, ht⟩
      · rw [if_neg hc] at h
        cases h
        rcases List.mem_cons.mp he with h1 | h1
        · exact ⟨_, List.mem_cons_self _ _,
            List.mem_append_left _ (h1 ▸ hP), h1 ▸ hnm0, rfl⟩
        · exact ⟨e, List.mem_cons_of_mem _ h1, hP, hnm0, ht⟩
    · rw [if_neg hn] at h
      cases hr : trackIntoLedger pid nm now tl with
      | none => rw [hr] at h; cases h
      | some tl2 =>
        rw [hr] at h
        cases h
        rcases List.mem_cons.mp he with h1 | h1
        · exact ⟨hd, List.mem_cons_self _ _, h1 ▸ hP, h1 ▸ hnm0, h1 ▸ ht⟩
        · obtain ⟨e2, he2, h2, h3, h4⟩ := ih tl2 hr ⟨e, h1, hP, hnm0, ht⟩
          exact ⟨e2, List.mem_cons_of_mem hd he2, h2, h3, h4⟩


theorem nodup_append_singleton {l : List Nat} {a : Nat} (h : l.Nodup) (ha : a ∉ l) :
    (l ++ [a]).Nodup := by
  simp [List.nodup_append, h, ha]

theorem removePidFromLedger_WF (pid : Nat) (l : List ExitedProcessInfo) (h : LedgerWF l) :
    LedgerWF (removePidFromLedger pid l) := by
  intro e he
  rcases removePidFromLedger_mem pid l e he with ⟨h1, _⟩ | ⟨e0, h0, pids2, hr, hne, heq⟩
  · exact h e h1
  · subst heq
    exact ⟨rfl, (h e0 h0).2.sublist (removeFirst_sublist pid e0.pids pids2 hr)⟩

theorem removePidFromLedger_NE (pid : Nat) (l : List ExitedProcessInfo) (h : LedgerNE l) :
    LedgerNE (removePidFromLedger pid l) := by
  intro e he
  rcases removePidFromLedger_mem pid l e he with ⟨h1, _⟩ | ⟨e0, h0, pids2, hr, hne, heq⟩
  · exact h e h1
  · subst heq
    exact hne

theorem removePidFromLedger_not_mem (pid : Nat) (l : List ExitedProcessInfo)
    (h : ∀ e ∈ l, e.pids.Nodup) :
    ∀ e ∈ removePidFromLedger pid l, pid ∉ e.pids := by
  intro e he
  rcases removePidFromLedger_mem pid l e he with ⟨h1, h2⟩ | ⟨e0, h0, pids2, hr, hne, heq⟩
  · exact (removeFirst_none_iff pid e.pids).mp h2
  · subst heq
    exact removeFirst_not_mem_of_nodup pid e0.pids pids2 (h e0 h0) hr

theorem removePidFromLedger_absence (pid q : Nat) (l : List ExitedProcessInfo)
    (h : ∀ e ∈ l, q ∉ e.pids) :
    ∀ e ∈ removePidFromLedger pid l, q ∉ e.pids := by
  intro e he
  rcases removePidFromLedger_mem pid l e he with ⟨h1, _⟩ | ⟨e0, h0, pids2, hr, hne, heq⟩
  · exact h e h1
  · subst heq
    exact fun hq => h e0 h0 ((removeFirst_sublist pid e0.pids pids2 hr).subset hq)

theorem trackIntoLedger_WF (pid : Nat) (nm : String) (now : Nat)
    (l l' : List ExitedProcessInfo) (hWF : LedgerWF l)
    (h : trackIntoLedger pid nm now l = some l') : LedgerWF l' := by
  intro e he
  rcases trackIntoLedger_mem pid nm now l l' h e he with h1 | ⟨e0, h0, hn, h1 | h1⟩
  · exact hWF e h1
  · obtain ⟨heq, hmem⟩ := h1
    subst heq
    exact hWF e0 h0
  · obtain ⟨heq, hmem⟩ := h1
    subst heq
    exact ⟨rfl, nodup_append_singleton (hWF e0 h0).2 hmem⟩

theorem trackIntoLedger_NE (pid : Nat) (nm : String) (now : Nat)
    (l l' : List ExitedProcessInfo) (hNE : LedgerNE l)
    (h : trackIntoLedger pid nm now l = some l') : LedgerNE l' := by
  intro e he
  rcases trackIntoLedger_mem pid nm now l l' h e he with h1 | ⟨e0, h0, hn, h1 | h1⟩
  · exact hNE e h1
  · obtain ⟨heq, hmem⟩ := h1
    subst heq
    exact hNE e0 h0
  · obtain ⟨heq, hmem⟩ := h1
    subst heq
    simp

theorem trackIntoLedger_absence (pid q : Nat) (nm : String) (now : Nat)
    (l l' : List ExitedProcessInfo) (hq : q ≠ pid)
    (habs : ∀ e ∈ l, q ∉ e.pids)
    (h : trackIntoLedger pid nm now l = some l') : ∀ e ∈ l', q ∉ e.pids := by
  intro e he
  rcases trackIntoLedger_mem pid nm now l l' h e he with h1 | ⟨e0, h0, hn, h1 | h1⟩
  · exact habs e h1
  · obtain ⟨heq, hmem⟩ := h1
    subst heq
    exact habs e0 h0
  · obtain ⟨heq, hmem⟩ := h1
    subst heq
    intro hc
    rcases List.mem_append.mp hc with hc | hc
    · exact habs e0 h0 hc
    · exact hq (List.mem_singleton.mp hc)

theorem trackExitedProcess_WF (st : MetricsState) (pid : Nat) (nm : String) (now : Nat)
    (h : LedgerWF st.recentlyExited) :
    LedgerWF (trackExitedProcess st pid nm now).recentlyExited := by
  unfold trackExitedProcess
  cases hr : trackIntoLedger pid nm now st.recentlyExited with
  | some l' => exact trackIntoLedger_WF pid nm now _ l' h hr
  | none =>
    cases hs : alookup st.lastSeenPIDs pid with
    | some t =>
      intro e he
      rcases List.mem_append.mp he with h1 | h1
      · exact h e h1
      · rw [List.mem_singleton.mp h1]
        exact ⟨rfl, List.nodup_singleton pid⟩
    | none => exact h

theorem trackExitedProcess_NE (st : MetricsState) (pid : Nat) (nm : String) (now : Nat)
    (h : LedgerNE st.recentlyExited) :
    LedgerNE (trackExitedProcess st pid nm now).recentlyExited := by
  unfold trackExitedProcess
  cases hr : trackIntoLedger pid nm now st.recentlyExited with
  | some l' => exact trackIntoLedger_NE pid nm now _ l' h hr
  | none =>
    cases hs : alookup st.lastSeenPIDs pid with
    | some t =>
      intro e he
      rcases List.mem_append.mp he with h1 | h1
      · exact h e h1
      · rw [List.mem_singleton.mp h1]
        simp
    | none => exact h

theorem trackExitedProcess_absence (st : MetricsState) (pid q : Nat) (nm : String) (now : Nat)
    (hq : q ≠ pid) (habs : ∀ e ∈ st.recentlyExited, q ∉ e.pids) :
    ∀ e ∈ (trackExitedProcess st pid nm now).recentlyExited, q ∉ e.pids := by
  unfold trackExitedProcess
  cases hr : trackIntoLedger pid nm now st.recentlyExited with
  | some l' => exact trackIntoLedger_absence pid q nm now _ l' hq habs hr
  | none =>
    cases hs : alookup st.lastSeenPIDs pid with
    | some t =>
      intro e he
      rcases List.mem_append.mp he with h1 | h1
      · exact habs e h1
      · rw [List.mem_singleton.mp h1]
        simpa using hq
    | none => exact habs

theorem trackExitedProcess_processNames (st : MetricsState) (pid : Nat) (nm : String)
    (now : Nat) : (trackExitedProcess st pid nm now).processNames = st.processNames := by
  unfold trackExitedProcess
  cases trackIntoLedger pid nm now st.recentlyExited with
  | some l' => rfl
  | none => cases alookup st.lastSeenPIDs pid <;> rfl

theorem trackExitedProcess_lastSeenPIDs (st : MetricsState) (pid : Nat) (nm : String)
    (now : Nat) : (trackExitedProcess st pid nm now).lastSeenPIDs = st.lastSeenPIDs := by
  unfold trackExitedProcess
  cases trackIntoLedger pid nm now st.recentlyExited with
  | some l' => rfl
  | none => cases alookup st.lastSeenPIDs pid <;> rfl

theorem trackExitedProcess_adds (st : MetricsState) (pid : Nat) (nm : String) (now : Nat)
    (hs : alookup st.lastSeenPIDs pid ≠ none) :
    ∃ e ∈ (trackExitedProcess st pid nm now).recentlyExited,
      pid ∈ e.pids ∧ e.name = nm ∧ e.lastExitTime = now := by
  unfold trackExitedProcess
  cases hr : trackIntoLedger pid nm now st.recentlyExited with
  | some l' => exact trackIntoLedger_adds pid nm now _ l' hr
  | none =>
    cases ht : alookup st.lastSeenPIDs pid with
    | some t =>
      exact ⟨_, List.mem_append_right _ (List.mem_singleton.mpr rfl),
        List.mem_singleton.mpr rfl, rfl, rfl⟩
    | none => exact absurd ht hs

theorem trackExitedProcess_exists_preserved (st : MetricsState) (pid : Nat) (nm : String)
    (now : Nat) (P : Nat) (nm0 : String)
    (h : ∃ e ∈ st.recentlyExited, P ∈ e.pids ∧ e.name = nm0 ∧ e.lastExitTime = now) :
    ∃ e ∈ (trackExitedProcess st pid nm now).recentlyExited,
      P ∈ e.pids ∧ e.name = nm0 ∧ e.lastExitTime = now := by
  unfold trackExitedProcess
  cases hr : trackIntoLedger pid nm now st.recentlyExited with
  | some l' => exact trackIntoLedger_exists_preserved pid nm now P nm0 _ l' hr h
  | none =>
    cases ht : alookup st.lastSeenPIDs pid with
    | some t =>
      obtain ⟨e, he, h1, h2, h3⟩ := h
      exact ⟨e, List.mem_append_left _ he, h1, h2, h3⟩
    | none => exact h


theorem exitDetectStep_WF (cp cc : List Nat) (now : Nat) (probe : Nat → Bool)
    (st : MetricsState) (pid : Nat) (h : LedgerWF st.recentlyExited) :
    LedgerWF (exitDetectStep cp cc now probe st pid).recentlyExited := by
  simp only [exitDetectStep]
  split_ifs with h1 h2 h3 h4
  · exact h
  · exact h
  · exact h
  · exact h
  · exact trackExitedProcess_WF st pid _ now h

theorem exitDetectStep_NE (cp cc : List Nat) (now : Nat) (probe : Nat → Bool)
    (st : MetricsState) (pid : Nat) (h : LedgerNE st.recentlyExited) :
    LedgerNE (exitDetectStep cp cc now probe st pid).recentlyExited := by
  simp only [exitDetectStep]
  split_ifs with h1 h2 h3 h4
  · exact h
  · exact h
  · exact h
  · exact h
  · exact trackExitedProcess_NE st pid _ now h

theorem exitDetectStep_processNames (cp cc : List Nat) (now : Nat) (probe : Nat → Bool)
    (st : MetricsState) (pid : Nat) :
    (exitDetectStep cp cc now probe st pid).processNames = st.processNames := by
  simp only [exitDetectStep]
  split_ifs with h1 h2 h3 h4
  · rfl
  · rfl
  · rfl
  · rfl
  · exact trackExitedProcess_processNames st pid _ now

theorem exitDetectStep_lastSeen_ne (cp cc : List Nat) (now : Nat) (probe : Nat → Bool)
    (st : MetricsState) (pid P : Nat) (hne : pid ≠ P) :
    alookup (exitDetectStep cp cc now probe st pid).lastSeenPIDs P
      = alookup st.lastSeenPIDs P := by
  simp only [exitDetectStep]
  split_ifs with h1 h2 h3 h4
  · rfl
  · exact alookup_aremove_ne _ P pid hne
  · exact alookup_aremove_ne _ P pid hne
  · rfl
  · rw [show (trackExitedProcess st pid ((alookup st.processNames pid).getD "") now
        : MetricsState).lastSeenPIDs = st.lastSeenPIDs from
        trackExitedProcess_lastSeenPIDs st pid _ now ▸ rfl]
    exact alookup_aremove_ne _ P pid hne

theorem exitDetectStep_skip (cp cc : List Nat) (now : Nat) (probe : Nat → Bool)
    (st : MetricsState) (P : Nat) (h1 : cp.contains P = false) (h2 : cc.contains P = false)
    (h3 : (alookup st.processNames P).getD "" ≠ "") (h4 : probe P = true) :
    exitDetectStep cp cc now probe st P = st := by
  simp only [exitDetectStep]
  rw [if_neg (by simpa using h1), if_neg (by simpa using h2), if_neg h3, if_pos h4]

theorem exitDetectStep_ledger_absence (cp cc : List Nat) (now : Nat) (probe : Nat → Bool)
    (st : MetricsState) (pid P : Nat) (hne : P ≠ pid)
    (habs : ∀ e ∈ st.recentlyExited, P ∉ e.pids) :
    ∀ e ∈ (exitDetectStep cp cc now probe st pid).recentlyExited, P ∉ e.pids := by
  simp only [exitDetectStep]
  split_ifs with h1 h2 h3 h4
  · exact habs
  · exact habs
  · exact habs
  · exact habs
  · exact trackExitedProcess_absence st pid P _ now hne habs


theorem rosterStep_recentlyExited (now : Nat) (st : MetricsState) (proc : ProcessInfo) :
    (rosterStep now st proc).recentlyExited
      = removePidFromLedger proc.pid st.recentlyExited := by
  simp only [rosterStep]
  cases alookup st.processNames proc.pid <;> rfl

theorem rosterStep_lastSeen_ne (now : Nat) (st : MetricsState) (proc : ProcessInfo)
    (P : Nat) (hne : proc.pid ≠ P) :
    alookup (rosterStep now st proc).lastSeenPIDs P = alookup st.lastSeenPIDs P := by
  simp only [rosterStep, removeFromRecentlyExited]
  cases alookup st.processNames proc.pid <;>
    exact alookup_aset_ne st.lastSeenPIDs P proc.pid now hne

theorem foldl_exitDetectStep_WF (cp cc : List Nat) (now : Nat) (probe : Nat → Bool)
    (keys : List Nat) (st : MetricsState) (h : LedgerWF st.recentlyExited) :
    LedgerWF ((keys.foldl (exitDetectStep cp cc now probe) st).recentlyExited) := by
  induction keys generalizing st with
  | nil => exact h
  | cons hd tl ih => exact ih _ (exitDetectStep_WF cp cc now probe st hd h)

theorem foldl_exitDetectStep_NE (cp cc : List Nat) (now : Nat) (probe : Nat → Bool)
    (keys : List Nat) (st : MetricsState) (h : LedgerNE st.recentlyExited) :
    LedgerNE ((keys.foldl (exitDetectStep cp cc now probe) st).recentlyExited) := by
  induction keys generalizing st with
  | nil => exact h
  | cons hd tl ih => exact ih _ (exitDetectStep_NE cp cc now probe st hd h)

theorem foldl_rosterStep_WF (now : Nat) (l : List ProcessInfo) (st : MetricsState)
    (h : LedgerWF st.recentlyExited) :
    LedgerWF ((l.foldl (rosterStep now) st).recentlyExited) := by
  induction l generalizing st with
  | nil => exact h
  | cons hd tl ih =>
    refine ih _ ?_
    rw [rosterStep_recentlyExited]
    exact removePidFromLedger_WF hd.pid _ h

theorem foldl_rosterStep_NE (now : Nat) (l : List ProcessInfo) (st : MetricsState)
    (h : LedgerNE st.recentlyExited) :
    LedgerNE ((l.foldl (rosterStep now) st).recentlyExited) := by
  induction l generalizing st with
  | nil => exact h
  | cons hd tl ih =>
    refine ih _ ?_
    rw [rosterStep_recentlyExited]
    exact removePidFromLedger_NE hd.pid _ h

theorem foldl_rosterStep_absence (now : Nat) (P : Nat) (l : List ProcessInfo)
    (st : MetricsState) (h : ∀ e ∈ st.recentlyExited, P ∉ e.pids) :
    ∀ e ∈ ((l.foldl (rosterStep now) st).recentlyExited), P ∉ e.pids := by
  induction l generalizing st with
  | nil => exact h
  | cons hd tl ih =>
    refine ih _ ?_
    rw [rosterStep_recentlyExited]
    exact removePidFromLedger_absence hd.pid P _ h

theorem foldl_rosterStep_retracts (now : Nat) (P : Nat) (l : List ProcessInfo)
    (st : MetricsState) (hWF : LedgerWF st.recentlyExited)
    (hP : P ∈ l.map (fun p => p.pid)) :
    ∀ e ∈ ((l.foldl (rosterStep now) st).recentlyExited), P ∉ e.pids := by
  induction l generalizing st with
  | nil => cases hP
  | cons hd tl ih =>
    rcases List.mem_map.mp hP with ⟨p, hp, hpid⟩
    rcases List.mem_cons.mp hp with h1 | h1
    · subst h1
      rw [List.foldl_cons]
      apply foldl_rosterStep_absence
      rw [rosterStep_recentlyExited, hpid]
      exact removePidFromLedger_not_mem P _ (fun e he => (hWF e he).2)
    · rw [List.foldl_cons]
      refine ih _ ?_ (List.mem_map.mpr ⟨p, h1, hpid⟩)
      rw [rosterStep_recentlyExited]
      exact removePidFromLedger_WF hd.pid _ hWF

theorem ledgerFilter_WF (now : Nat) (l : List ExitedProcessInfo) (h : LedgerWF l) :
    LedgerWF (l.filter (fun p => now - p.lastExitTime < fiveMinutes)) := by
  intro e he
  exact h e (List.mem_of_mem_filter he)

theorem ledgerFilter_NE (now : Nat) (l : List ExitedProcessInfo) (h : LedgerNE l) :
    LedgerNE (l.filter (fun p => now - p.lastExitTime < fiveMinutes)) := by
  intro e he
  exact h e (List.mem_of_mem_filter he)


theorem handleSubprocess_recentlyExited (ctx : Ctx) (n : String) (id : Nat) (c u : ℚ) :
    (handleSubprocess ctx n id c u).metricsState.recentlyExited
      = ctx.metricsState.recentlyExited := by
  unfold handleSubprocess
  cases ctx.currentCoalition <;> rfl

theorem handleCoalition_recentlyExited (ctx : Ctx) (n : String) (id : Nat) (c u : ℚ) :
    (handleCoalition ctx n id c u).metricsState.recentlyExited
      = ctx.metricsState.recentlyExited := by
  unfold handleCoalition
  cases ctx.currentCoalition <;> rfl

theorem rtProcessLine_recentlyExited (ctx : Ctx) (line : String) :
    (rtProcessLine ctx line).1.metricsState.recentlyExited
      = ctx.metricsState.recentlyExited := by
  unfold rtProcessLine
  repeat' split
  all_goals first
    | rfl
    | exact handleSubprocess_recentlyExited ..
    | exact handleCoalition_recentlyExited ..


theorem rtFeed_recentlyExited (lines : List String) (ctx : Ctx) :
    (rtFeed ctx lines).metricsState.recentlyExited = ctx.metricsState.recentlyExited := by
  induction lines generalizing ctx with
  | nil => rfl
  | cons hd tl ih =>
    unfold rtFeed
    rcases hp : rtProcessLine ctx hd with ⟨c, s⟩
    have hc : c.metricsState.recentlyExited = ctx.metricsState.recentlyExited := by
      have h2 := rtProcessLine_recentlyExited ctx hd
      rw [hp] at h2
      exact h2
    cases s
    all_goals first | exact (ih c).trans hc | exact hc

theorem rtEnter_metricsState (ctx : Ctx) : (rtEnter ctx).metricsState = ctx.metricsState := by
  unfold rtEnter
  cases ctx.currentCoalition <;> rfl

theorem orphStep_recentlyExited (ctx : Ctx) (o : ProcessInfo) :
    (orphStep ctx o).metricsState.recentlyExited = ctx.metricsState.recentlyExited := rfl

theorem foldl_orphStep_recentlyExited (l : List ProcessInfo) (ctx : Ctx) :
    (l.foldl orphStep ctx).metricsState.recentlyExited
      = ctx.metricsState.recentlyExited := by
  induction l generalizing ctx with
  | nil => rfl
  | cons hd tl ih => exact (ih (orphStep ctx hd)).trans (orphStep_recentlyExited ctx hd)

theorem foldl_coalNamesStep_recentlyExited (l : List ProcessCoalition) (st : MetricsState) :
    (l.foldl coalNamesStep st).recentlyExited = st.recentlyExited := by
  induction l generalizing st with
  | nil => rfl
  | cons hd tl ih =>
    rw [List.foldl_cons, ih]
    unfold coalNamesStep
    cases alookup st.coalitionNames hd.coalitionID <;> rfl

theorem updateProcessTracking_ledger_WF (ctx : Ctx) (now : Nat) (probe : Nat → Bool)
    (h : LedgerWF ctx.metricsState.recentlyExited) :
    LedgerWF (updateProcessTracking ctx now probe).metricsState.recentlyExited := by
  simp only [updateProcessTracking]
  apply foldl_rosterStep_WF
  apply ledgerFilter_WF
  exact foldl_exitDetectStep_WF _ _ now probe _ _ h

theorem updateProcessTracking_ledger_NE (ctx : Ctx) (now : Nat) (probe : Nat → Bool)
    (h : LedgerNE ctx.metricsState.recentlyExited) :
    LedgerNE (updateProcessTracking ctx now probe).metricsState.recentlyExited := by
  simp only [updateProcessTracking]
  apply foldl_rosterStep_NE
  apply ledgerFilter_NE
  exact foldl_exitDetectStep_NE _ _ now probe _ _ h

theorem updateProcessTracking_retracts (ctx : Ctx) (now : Nat) (probe : Nat → Bool) (P : Nat)
    (hWF : LedgerWF ctx.metricsState.recentlyExited)
    (hP : P ∈ ctx.newProcesses.map (fun p => p.pid)) :
    ∀ e ∈ (updateProcessTracking ctx now probe).metricsState.recentlyExited, P ∉ e.pids := by
  simp only [updateProcessTracking]
  apply foldl_rosterStep_retracts now P ctx.newProcesses _ _ hP
  apply ledgerFilter_WF
  exact foldl_exitDetectStep_WF _ _ now probe _ _ hWF

theorem rtExit_ledger_WF (ctx : Ctx) (now : Nat) (probe : Nat → Bool)
    (h : LedgerWF ctx.metricsState.recentlyExited) :
    LedgerWF (rtExit ctx now probe).metricsState.recentlyExited := by
  unfold rtExit
  cases hc : ctx.currentCoalition with
  | none =>
    simp only [hc, foldl_coalNamesStep_recentlyExited]
    apply updateProcessTracking_ledger_WF
    rw [handleOrphanedSubprocesses_eq, foldl_orphStep_recentlyExited]
    exact h
  | some c =>
    simp only [hc, foldl_coalNamesStep_recentlyExited]
    apply updateProcessTracking_ledger_WF
    rw [handleOrphanedSubprocesses_eq, foldl_orphStep_recentlyExited]
    exact h

theorem rtExit_ledger_NE (ctx : Ctx) (now : Nat) (probe : Nat → Bool)
    (h : LedgerNE ctx.metricsState.recentlyExited) :
    LedgerNE (rtExit ctx now probe).metricsState.recentlyExited := by
  unfold rtExit
  cases hc : ctx.currentCoalition with
  | none =>
    simp only [hc, foldl_coalNamesStep_recentlyExited]
    apply updateProcessTracking_ledger_NE
    rw [handleOrphanedSubprocesses_eq, foldl_orphStep_recentlyExited]
    exact h
  | some c =>
    simp only [hc, foldl_coalNamesStep_recentlyExited]
    apply updateProcessTracking_ledger_NE
    rw [handleOrphanedSubprocesses_eq, foldl_orphStep_recentlyExited]
    exact h

theorem rtExit_retracts (ctx : Ctx) (now : Nat) (probe : Nat → Bool) (P : Nat)
    (hWF : LedgerWF ctx.metricsState.recentlyExited)
    (hP : P ∈ (rtExit ctx now probe).metricsState.processes.map (fun p => p.pid)) :
    ∀ e ∈ (rtExit ctx now probe).metricsState.recentlyExited, P ∉ e.pids := by
  rw [rtExit_processes_eq] at hP
  unfold rtExit
  cases hc : ctx.currentCoalition with
  | none =>
    simp only [hc, foldl_coalNamesStep_recentlyExited]
    rw [hc] at hP
    apply updateProcessTracking_retracts _ now probe P _ hP
    rw [handleOrphanedSubprocesses_eq, foldl_orphStep_recentlyExited]
    exact hWF
  | some c =>
    simp only [hc, foldl_coalNamesStep_recentlyExited]
    rw [hc] at hP
    apply updateProcessTracking_retracts _ now probe P _ hP
    rw [handleOrphanedSubprocesses_eq, foldl_orphStep_recentlyExited]
    exact hWF


/-- C10: after a sample's Running-tasks processing commits, every exited
ledger entry's Occurrences field equals the length of its PIDs list and
the PIDs list holds no duplicate PIDs, provided the incoming ledger
satisfied the same invariant (which holds of the initial empty ledger, so
it holds after every sample by induction). -/
theorem C10_occurrences_match_and_nodup (lines : List String) (st : MetricsState)
    (now : Nat) (probe : Nat → Bool)
    (h : ∀ e ∈ st.recentlyExited, e.occurrences = e.pids.length ∧ e.pids.Nodup) :
    ∀ e ∈ (runTasksSection lines st now probe).recentlyExited,
      e.occurrences = e.pids.length ∧ e.pids.Nodup := by
  unfold runTasksSection
  apply rtExit_ledger_WF
  show LedgerWF _
  rw [rtFeed_recentlyExited, rtEnter_metricsState]
  exact h

/-- C10 witness: the theorem applied to a concrete sample and a concrete
one-entry ledger, which survives the sample and still satisfies the
invariant. -/
theorem C10_witness :
    (∀ e ∈ (runTasksSection ["A 1 1.0 1.0"] c10st 10 probeAlive).recentlyExited,
      e.occurrences = e.pids.length ∧ e.pids.Nodup) ∧
    c10entry ∈ (runTasksSection ["A 1 1.0 1.0"] c10st 10 probeAlive).recentlyExited :=
  ⟨C10_occurrences_match_and_nodup ["A 1 1.0 1.0"] c10st 10 probeAlive (by decide),
    by decide⟩

/-- C3: a PID present in some exited-ledger entry at the start of a sample
that appears in the sample's committed roster has been removed from every
entry's PIDs list by the end of that sample's processing, and no committed
entry is left with an empty PIDs list (emptied entries are deleted). The
hypotheses are the ledger well-formedness invariants, which hold of every
reachable ledger. -/
theorem C3_reappearing_pid_fully_retracted (lines : List String) (st : MetricsState)
    (now : Nat) (probe : Nat → Bool) (P : Nat)
    (hWF : ∀ e ∈ st.recentlyExited, e.occurrences = e.pids.length ∧ e.pids.Nodup)
    (hNE : ∀ e ∈ st.recentlyExited, e.pids ≠ [])
    (hP : P ∈ (runTasksSection lines st now probe).processes.map (fun p => p.pid)) :
    (∀ e ∈ (runTasksSection lines st now probe).recentlyExited, P ∉ e.pids) ∧
    (∀ e ∈ (runTasksSection lines st now probe).recentlyExited, e.pids ≠ []) := by
  constructor
  · unfold runTasksSection at hP ⊢
    refine rtExit_retracts _ now probe P ?_ hP
    show LedgerWF _
    rw [rtFeed_recentlyExited, rtEnter_metricsState]
    exact hWF
  · unfold runTasksSection
    apply rtExit_ledger_NE
    show LedgerNE _
    rw [rtFeed_recentlyExited, rtEnter_metricsState]
    exact hNE

/-- C3 witness: PID 202 sits in the ledger entry named "Tab" and reappears
in the sample's roster; after the sample it is gone from the ledger. -/
theorem C3_witness :
    (∀ e ∈ (runTasksSection ["Browser 100 1.0 1.0", "  Tab 202 5.0 1.0"]
        c3st 10 probeAlive).recentlyExited, 202 ∉ e.pids) ∧
    (∀ e ∈ (runTasksSection ["Browser 100 1.0 1.0", "  Tab 202 5.0 1.0"]
        c3st 10 probeAlive).recentlyExited, e.pids ≠ []) :=
  C3_reappearing_pid_fully_retracted ["Browser 100 1.0 1.0", "  Tab 202 5.0 1.0"]
    c3st 10 probeAlive 202 (by decide) (by decide) (by decide)

theorem alookup_mem_keys {α β : Type} [DecidableEq α] (m : List (α × β)) (k : α)
    (h : alookup m k ≠ none) : k ∈ m.map Prod.fst := by
  induction m with
  | nil => exact absurd rfl h
  | cons hd tl ih =>
    by_cases hh : hd.1 = k
    · exact List.mem_map.mpr ⟨hd, List.mem_cons_self hd tl, hh⟩
    · rw [show alookup (hd :: tl) k = alookup tl k by
        rcases hd with ⟨a, b⟩; simpa [alookup] using fun hc => absurd hc hh] at h
      exact List.mem_cons_of_mem _ (ih h)

theorem alookup_aremove_none {α β : Type} [DecidableEq α] (m : List (α × β)) (k k1 : α)
    (h : alookup m k = none) : alookup (aremove m k1) k = none := by
  by_cases he : k1 = k
  · rw [he, alookup_aremove_self]
  · rw [alookup_aremove_ne m k k1 he, h]

theorem foldl_exitDetectStep_processNames (cp cc : List Nat) (now : Nat)
    (probe : Nat → Bool) (keys : List Nat) (st : MetricsState) :
    (keys.foldl (exitDetectStep cp cc now probe) st).processNames = st.processNames := by
  induction keys generalizing st with
  | nil => rfl
  | cons hd tl ih =>
    exact (ih _).trans (exitDetectStep_processNames cp cc now probe st hd)

theorem foldl_exitDetectStep_lastSeen_alive (cp cc : List Nat) (now : Nat)
    (probe : Nat → Bool) (keys : List Nat) (st : MetricsState) (P : Nat)
    (hcp : cp.contains P = false) (hcc : cc.contains P = false)
    (hnm : (alookup st.processNames P).getD "" ≠ "") (hprobe : probe P = true) :
    alookup ((keys.foldl (exitDetectStep cp cc now probe) st).lastSeenPIDs) P
      = alookup st.lastSeenPIDs P := by
  induction keys generalizing st with
  | nil => rfl
  | cons k tl ih =>
    rw [List.foldl_cons]
    by_cases hk : k = P
    · subst hk
      rw [exitDetectStep_skip cp cc now probe st k hcp hcc hnm hprobe]
      exact ih st hnm
    · have hnm2 : (alookup (exitDetectStep cp cc now probe st k).processNames P).getD ""
          ≠ "" := by
        rw [exitDetectStep_processNames]
        exact hnm
      exact (ih _ hnm2).trans (exitDetectStep_lastSeen_ne cp cc now probe st k P hk)

theorem foldl_exitDetectStep_absence_alive (cp cc : List Nat) (now : Nat)
    (probe : Nat → Bool) (keys : List Nat) (st : MetricsState) (P : Nat)
    (hcp : cp.contains P = false) (hcc : cc.contains P = false)
    (hnm : (alookup st.processNames P).getD "" ≠ "") (hprobe : probe P = true)
    (habs : ∀ e ∈ st.recentlyExited, P ∉ e.pids) :
    ∀ e ∈ ((keys.foldl (exitDetectStep cp cc now probe) st).recentlyExited), P ∉ e.pids := by
  induction keys generalizing st with
  | nil => exact habs
  | cons k tl ih =>
    rw [List.foldl_cons]
    by_cases hk : k = P
    · subst hk
      rw [exitDetectStep_skip cp cc now probe st k hcp hcc hnm hprobe]
      exact ih st hnm habs
    · have hnm2 : (alookup (exitDetectStep cp cc now probe st k).processNames P).getD ""
          ≠ "" := by
        rw [exitDetectStep_processNames]
        exact hnm
      exact ih _ hnm2
        (exitDetectStep_ledger_absence cp cc now probe st k P (fun he => hk he.symm) habs)

theorem foldl_rosterStep_lastSeen_notin (now : Nat) (l : List ProcessInfo)
    (st : MetricsState) (P : Nat) (hP : P ∉ l.map (fun p => p.pid)) :
    alookup ((l.foldl (rosterStep now) st).lastSeenPIDs) P
      = alookup st.lastSeenPIDs P := by
  induction l generalizing st with
  | nil => rfl
  | cons hd tl ih =>
    rw [List.foldl_cons]
    have h1 : hd.pid ≠ P := by
      intro he
      exact hP (List.mem_map.mpr ⟨hd, List.mem_cons_self hd tl, he⟩)
    have h2 : P ∉ tl.map (fun p => p.pid) := by
      intro he
      rcases List.mem_map.mp he with ⟨p, hp, hpid⟩
      exact hP (List.mem_map.mpr ⟨p, List.mem_cons_of_mem hd hp, hpid⟩)
    exact (ih _ h2).trans (rosterStep_lastSeen_ne now st hd P h1)

theorem foldl_rosterStep_exists (now : Nat) (l : List ProcessInfo) (st : MetricsState)
    (P : Nat) (nm : String) (hP : P ∉ l.map (fun p => p.pid))
    (hex : ∃ e ∈ st.recentlyExited, P ∈ e.pids ∧ e.name = nm) :
    ∃ e ∈ ((l.foldl (rosterStep now) st).recentlyExited), P ∈ e.pids ∧ e.name = nm := by
  induction l generalizing st with
  | nil => exact hex
  | cons hd tl ih =>
    rw [List.foldl_cons]
    have h1 : P ≠ hd.pid := by
      intro he
      exact hP (List.mem_map.mpr ⟨hd, List.mem_cons_self hd tl, he.symm⟩)
    have h2 : P ∉ tl.map (fun p => p.pid) := by
      intro he
      rcases List.mem_map.mp he with ⟨p, hp, hpid⟩
      exact hP (List.mem_map.mpr ⟨p, List.mem_cons_of_mem hd hp, hpid⟩)
    refine ih _ h2 ?_
    rw [rosterStep_recentlyExited]
    exact removePidFromLedger_exists_preserved hd.pid P nm h1 _ hex

theorem contains_eq_false_of_not_mem {l : List Nat} {a : Nat} (h : a ∉ l) :
    l.contains a = false := by
  simpa using h

theorem exitDetectStep_dead_effect (cp cc : List Nat) (now : Nat) (probe : Nat → Bool)
    (st : MetricsState) (P : Nat) (nm : String)
    (hcp : cp.contains P = false) (hcc : cc.contains P = false)
    (hnm : alookup st.processNames P = some nm) (hnm2 : nm ≠ "")
    (hprobe : probe P = false) (hseen : alookup st.lastSeenPIDs P ≠ none) :
    alookup (exitDetectStep cp cc now probe st P).lastSeenPIDs P = none ∧
    ∃ e ∈ (exitDetectStep cp cc now probe st P).recentlyExited,
      P ∈ e.pids ∧ e.name = nm ∧ e.lastExitTime = now := by
  have hname : (alookup st.processNames P).getD "" = nm := by rw [hnm]; rfl
  simp only [exitDetectStep]
  rw [if_neg (by simpa using hcp), if_neg (by simpa using hcc), hname, if_neg hnm2,
    if_neg (by simp [hprobe])]
  constructor
  · exact alookup_aremove_self _ P
  · exact trackExitedProcess_adds st P nm now hseen

theorem exitDetectStep_post_preserved (cp cc : List Nat) (now : Nat) (probe : Nat → Bool)
    (st : MetricsState) (k P : Nat) (nm : String)
    (hnone : alookup st.lastSeenPIDs P = none)
    (hex : ∃ e ∈ st.recentlyExited, P ∈ e.pids ∧ e.name = nm ∧ e.lastExitTime = now) :
    alookup (exitDetectStep cp cc now probe st k).lastSeenPIDs P = none ∧
    ∃ e ∈ (exitDetectStep cp cc now probe st k).recentlyExited,
      P ∈ e.pids ∧ e.name = nm ∧ e.lastExitTime = now := by
  simp only [exitDetectStep]
  split_ifs with h1 h2 h3 h4
  · exact ⟨hnone, hex⟩
  · exact ⟨alookup_aremove_none _ P k hnone, hex⟩
  · exact ⟨alookup_aremove_none _ P k hnone, hex⟩
  · exact ⟨hnone, hex⟩
  · refine ⟨?_, trackExitedProcess_exists_preserved st k _ now P nm hex⟩
    apply alookup_aremove_none
    rw [trackExitedProcess_lastSeenPIDs]
    exact hnone

theorem foldl_exitDetectStep_post (cp cc : List Nat) (now : Nat) (probe : Nat → Bool)
    (keys : List Nat) (P : Nat) (nm : String) :
    ∀ st : MetricsState, alookup st.lastSeenPIDs P = none →
      (∃ e ∈ st.recentlyExited, P ∈ e.pids ∧ e.name = nm ∧ e.lastExitTime = now) →
      alookup ((keys.foldl (exitDetectStep cp cc now probe) st).lastSeenPIDs) P = none ∧
      ∃ e ∈ ((keys.foldl (exitDetectStep cp cc now probe) st).recentlyExited),
        P ∈ e.pids ∧ e.name = nm ∧ e.lastExitTime = now := by
  induction keys with
  | nil => exact fun st h1 h2 => ⟨h1, h2⟩
  | cons k tl ih =>
    intro st h1 h2
    rw [List.foldl_cons]
    obtain ⟨h3, h4⟩ := exitDetectStep_post_preserved cp cc now probe st k P nm h1 h2
    exact ih _ h3 h4

theorem foldl_exitDetectStep_dead (cp cc : List Nat) (now : Nat) (probe : Nat → Bool)
    (keys : List Nat) (P : Nat) (nm : String)
    (hcp : cp.contains P = false) (hcc : cc.contains P = false)
    (hnm2 : nm ≠ "") (hprobe : probe P = false) (hkeys : P ∈ keys) :
    ∀ st : MetricsState, alookup st.processNames P = some nm →
      alookup st.lastSeenPIDs P ≠ none →
      alookup ((keys.foldl (exitDetectStep cp cc now probe) st).lastSeenPIDs) P = none ∧
      ∃ e ∈ ((keys.foldl (exitDetectStep cp cc now probe) st).recentlyExited),
        P ∈ e.pids ∧ e.name = nm ∧ e.lastExitTime = now := by
  induction keys with
  | nil => cases hkeys
  | cons k tl ih =>
    intro st hnm hseen
    rw [List.foldl_cons]
    by_cases hk : k = P
    · subst hk
      obtain ⟨h1, h2⟩ := exitDetectStep_dead_effect cp cc now probe st k nm hcp hcc
        hnm hnm2 hprobe hseen
      exact foldl_exitDetectStep_post cp cc now probe tl k nm _ h1 h2
    · rcases List.mem_cons.mp hkeys with he | he
      · exact absurd he.symm hk
      · refine ih he _ ?_ ?_
        · rw [exitDetectStep_processNames]
          exact hnm
        · rw [exitDetectStep_lastSeen_ne cp cc now probe st k P hk]
          exact hseen

theorem updateProcessTracking_metricsState (ctx : Ctx) (now : Nat) (probe : Nat → Bool) :
    (updateProcessTracking ctx now probe).metricsState
      = ctx.newProcesses.foldl (rosterStep now) (prunePhase now (exitPhase ctx now probe)) :=
  rfl

theorem prunedLedger_absence (now : Nat) (P : Nat) (l : List ExitedProcessInfo)
    (h : ∀ e ∈ l, P ∉ e.pids) :
    ∀ e ∈ prunedLedger now l, P ∉ e.pids :=
  fun e he => h e (List.mem_of_mem_filter he)

theorem prunedLedger_exists (now : Nat) (P : Nat) (nm : String)
    (l : List ExitedProcessInfo)
    (h : ∃ e ∈ l, P ∈ e.pids ∧ e.name = nm ∧ e.lastExitTime = now) :
    ∃ e ∈ prunedLedger now l, P ∈ e.pids ∧ e.name = nm := by
  obtain ⟨e, he, h1, h2, h3⟩ := h
  refine ⟨e, List.mem_filter.mpr ⟨he, ?_⟩, h1, h2⟩
  simp [h3, fiveMinutes]

/-- C4 (amended): during exit detection, a tracked PID with a recorded
non-empty name that is absent from the new roster and is not a committed
coalition ID for the sample is gated by the liveness probe: if the probe
reports it alive, the PID is neither removed from last-seen tracking nor
added to the exited ledger; if the probe reports it dead, its last-seen
entry is removed and the exited ledger records it under its tracked name. -/
theorem C4_probe_gates_exit_amended (ctx : Ctx) (now : Nat) (probe : Nat → Bool)
    (P : Nat) (nm : String)
    (hnm : alookup ctx.metricsState.processNames P = some nm) (hnm2 : nm ≠ "")
    (hroster : P ∉ ctx.newProcesses.map (fun p => p.pid))
    (hcoal : P ∉ ctx.newCoalitions.map (fun c => c.coalitionID)) :
    (probe P = true →
      alookup (updateProcessTracking ctx now probe).metricsState.lastSeenPIDs P
        = alookup ctx.metricsState.lastSeenPIDs P ∧
      ((∀ e ∈ ctx.metricsState.recentlyExited, P ∉ e.pids) →
        ∀ e ∈ (updateProcessTracking ctx now probe).metricsState.recentlyExited,
          P ∉ e.pids)) ∧
    (probe P = false → alookup ctx.metricsState.lastSeenPIDs P ≠ none →
      alookup (updateProcessTracking ctx now probe).metricsState.lastSeenPIDs P = none ∧
      ∃ e ∈ (updateProcessTracking ctx now probe).metricsState.recentlyExited,
        P ∈ e.pids ∧ e.name = nm) := by
  rw [updateProcessTracking_metricsState]
  have hcp := contains_eq_false_of_not_mem hroster
  have hcc := contains_eq_false_of_not_mem hcoal
  constructor
  · intro hal
    have hgd : (alookup ctx.metricsState.processNames P).getD "" ≠ "" := by
      rw [hnm]; exact hnm2
    constructor
    · rw [foldl_rosterStep_lastSeen_notin now ctx.newProcesses _ P hroster]
      exact foldl_exitDetectStep_lastSeen_alive _ _ now probe _ ctx.metricsState P
        hcp hcc hgd hal
    · intro habs
      apply foldl_rosterStep_absence
      apply prunedLedger_absence
      exact foldl_exitDetectStep_absence_alive _ _ now probe _ ctx.metricsState P
        hcp hcc hgd hal habs
  · intro hdead hseen
    obtain ⟨h1, h2⟩ := foldl_exitDetectStep_dead
      (ctx.newProcesses.map (fun p => p.pid))
      (ctx.newCoalitions.map (fun c => c.coalitionID)) now probe
      (ctx.metricsState.lastSeenPIDs.map (fun p => p.1)) P nm
      hcp hcc hnm2 hdead (alookup_mem_keys ctx.metricsState.lastSeenPIDs P hseen)
      ctx.metricsState hnm hseen
    refine ⟨?_, ?_⟩
    · rw [foldl_rosterStep_lastSeen_notin now ctx.newProcesses _ P hroster]
      exact h1
    · exact foldl_rosterStep_exists now ctx.newProcesses _ P nm hroster
        (prunedLedger_exists now P nm _ h2)

/-- C4 counterexample to the unamended claim: PID 5 is tracked with the
non-empty name "A", is absent from the new roster, and the probe reports it
alive, yet its last-seen entry is removed, because the committed coalition
ID 5 collides with the PID and the coalition-ID check deletes tracking
before the probe is consulted. -/
theorem C4_counterexample :
    probeAlive 5 = true ∧
    alookup c4ctx.metricsState.processNames 5 = some ("A") ∧
    (5 ∉ c4ctx.newProcesses.map (fun p => p.pid)) ∧
    alookup c4ctx.metricsState.lastSeenPIDs 5 = some 10 ∧
    alookup (updateProcessTracking c4ctx 10 probeAlive).metricsState.lastSeenPIDs 5
      = none := by
  decide

/-- C4 witness: PID 7 tracked as "Gone" and absent from an empty roster;
with an always-alive probe its tracking entry survives and the ledger stays
empty, with an always-dead probe its tracking entry is removed and the
ledger records it. -/
theorem C4_witness :
    (alookup (updateProcessTracking c4wctx 100 probeAlive).metricsState.lastSeenPIDs 7
        = some 3 ∧
      ∀ e ∈ (updateProcessTracking c4wctx 100 probeAlive).metricsState.recentlyExited,
        7 ∉ e.pids) ∧
    (alookup (updateProcessTracking c4wctx 100 probeDead).metricsState.lastSeenPIDs 7
        = none ∧
      ∃ e ∈ (updateProcessTracking c4wctx 100 probeDead).metricsState.recentlyExited,
        7 ∈ e.pids ∧ e.name = ("Gone")) := by
  constructor
  · obtain ⟨h1, h2⟩ := (C4_probe_gates_exit_amended c4wctx 100 probeAlive 7 ("Gone") (by decide) (by decide)
      (by decide) (by decide)).1 (by decide)
    exact ⟨h1.trans (by decide), h2 (by decide)⟩
  · exact (C4_probe_gates_exit_amended c4wctx 100 probeDead 7 ("Gone") (by decide) (by decide) (by decide)
      (by decide)).2 (by decide) (by decide)

theorem irqPass_eq_commit (st : MetricsState) (lines : List String) :
    irqPass st lines = commitIRQHistory (irqMid st lines) := rfl

theorem commitCPUStep_perCPUInterrupts (s : MetricsState) (c : String) :
    (commitCPUStep s c).perCPUInterrupts = s.perCPUInterrupts := rfl

theorem commitCPUStep_history_ne (s : MetricsState) (c cpu : String) (h : c ≠ cpu) :
    alookup (commitCPUStep s c).perCPUInterruptHistory cpu
      = alookup s.perCPUInterruptHistory cpu := by
  simp only [commitCPUStep]
  exact alookup_aset_ne _ cpu c _ h

theorem foldl_commitCPUStep_notin (l : List String) (cpu : String) (h : cpu ∉ l) :
    ∀ st : MetricsState,
      alookup ((l.foldl commitCPUStep st).perCPUInterruptHistory) cpu
        = alookup st.perCPUInterruptHistory cpu := by
  induction l with
  | nil => exact fun st => rfl
  | cons hd tl ih =>
    intro st
    rw [List.foldl_cons]
    have h1 : cpu ∉ tl := fun hc => h (List.mem_cons_of_mem hd hc)
    have h2 : hd ≠ cpu := fun hc => h (hc ▸ List.mem_cons_self hd tl)
    exact (ih h1 _).trans (commitCPUStep_history_ne st hd cpu h2)

theorem foldl_commitCPUStep_mem (l : List String) (cpu : String)
    (hnd : l.Nodup) (hmem : cpu ∈ l) :
    ∀ st : MetricsState,
      alookup ((l.foldl commitCPUStep st).perCPUInterruptHistory) cpu
        = some (AddToHistory ((alookup st.perCPUInterruptHistory cpu).getD [])
            ((alookup st.perCPUInterrupts cpu).getD 0) 30) := by
  induction l with
  | nil => cases hmem
  | cons hd tl ih =>
    intro st
    rw [List.foldl_cons]
    by_cases hk : hd = cpu
    · subst hk
      have htl : hd ∉ tl := (List.nodup_cons.mp hnd).1
      rw [foldl_commitCPUStep_notin tl hd htl]
      simp only [commitCPUStep]
      exact alookup_aset_self _ hd _
    · rcases List.mem_cons.mp hmem with he | he
      · exact absurd he.symm hk
      · rw [ih (List.nodup_cons.mp hnd).2 he]
        rw [commitCPUStep_history_ne st hd cpu hk, commitCPUStep_perCPUInterrupts]

theorem resetCPUStep_history (s : MetricsState) (c : String) :
    (resetCPUStep s c).perCPUInterruptHistory = s.perCPUInterruptHistory := rfl

theorem foldl_resetCPUStep_history (l : List String) :
    ∀ st : MetricsState,
      (l.foldl resetCPUStep st).perCPUInterruptHistory = st.perCPUInterruptHistory := by
  induction l with
  | nil => exact fun st => rfl
  | cons hd tl ih => exact fun st => ih _

theorem foldl_resetCPUStep_notin (l : List String) (cpu : String) (h : cpu ∉ l) :
    ∀ st : MetricsState,
      alookup ((l.foldl resetCPUStep st).perCPUInterrupts) cpu
        = alookup st.perCPUInterrupts cpu := by
  induction l with
  | nil => exact fun st => rfl
  | cons hd tl ih =>
    intro st
    rw [List.foldl_cons]
    have h1 : cpu ∉ tl := fun hc => h (List.mem_cons_of_mem hd hc)
    have h2 : hd ≠ cpu := fun hc => h (hc ▸ List.mem_cons_self hd tl)
    refine (ih h1 _).trans ?_
    simp only [resetCPUStep]
    exact alookup_aset_ne _ cpu hd 0 h2

theorem foldl_resetCPUStep_mem (l : List String) (cpu : String) (hmem : cpu ∈ l) :
    ∀ st : MetricsState,
      alookup ((l.foldl resetCPUStep st).perCPUInterrupts) cpu = some 0 := by
  induction l with
  | nil => cases hmem
  | cons hd tl ih =>
    intro st
    rw [List.foldl_cons]
    by_cases htl : cpu ∈ tl
    · exact ih htl _
    · rcases List.mem_cons.mp hmem with he | he
      · subst he
        rw [foldl_resetCPUStep_notin tl cpu htl]
        simp only [resetCPUStep]
        exact alookup_aset_self _ cpu 0
      · exact absurd he htl

theorem recordRate_history (ctx : Ctx) (cap : Option (List Char))
    (addTotal : Ctx → ℚ → Ctx) (setMap : MetricsState → String → ℚ → MetricsState)
    (hA : ∀ c v, (addTotal c v).metricsState = c.metricsState)
    (hS : ∀ s c v, (setMap s c v).perCPUInterruptHistory = s.perCPUInterruptHistory) :
    (recordRate ctx cap addTotal setMap).metricsState.perCPUInterruptHistory
      = ctx.metricsState.perCPUInterruptHistory := by
  rcases cap with _ | num
  · rfl
  · simp only [recordRate]
    rcases hq : parseQ num with _ | val
    · rfl
    · simp only []
      split
      · rw [hS, hA]
      · rw [hA]

theorem recordRate_currentCPU (ctx : Ctx) (cap : Option (List Char))
    (addTotal : Ctx → ℚ → Ctx) (setMap : MetricsState → String → ℚ → MetricsState)
    (hA : ∀ c v, (addTotal c v).currentCPU = c.currentCPU) :
    (recordRate ctx cap addTotal setMap).currentCPU = ctx.currentCPU := by
  rcases cap with _ | num
  · rfl
  · simp only [recordRate]
    rcases hq : parseQ num with _ | val
    · rfl
    · simp only []
      split
      · rw [hA]
      · rw [hA]

theorem recordRate_rates_ne (ctx : Ctx) (cap : Option (List Char))
    (addTotal : Ctx → ℚ → Ctx) (setMap : MetricsState → String → ℚ → MetricsState)
    (cpu : String)
    (hA : ∀ c v, (addTotal c v).metricsState = c.metricsState)
    (hA2 : ∀ c v, (addTotal c v).currentCPU = c.currentCPU)
    (hS : ∀ s c v, c ≠ cpu →
      alookup (setMap s c v).perCPUInterrupts cpu = alookup s.perCPUInterrupts cpu)
    (hcur : ctx.currentCPU ≠ cpu) :
    alookup (recordRate ctx cap addTotal setMap).metricsState.perCPUInterrupts cpu
      = alookup ctx.metricsState.perCPUInterrupts cpu := by
  rcases cap with _ | num
  · rfl
  · simp only [recordRate]
    rcases hq : parseQ num with _ | val
    · rfl
    · simp only []
      split
      · rw [hS _ _ _ (by rw [hA2]; exact hcur), hA]
      · rw [hA]

theorem cpuIntStep_history (c : Ctx) (l : String) :
    ((cpuIntProcessLine c l).1).metricsState.perCPUInterruptHistory
      = c.metricsState.perCPUInterruptHistory := by
  simp only [cpuIntProcessLine]
  split
  · rfl
  · rcases hm : cpuInterruptMatch l with _ | ds <;> simp only [hm]
    · rcases h3 : (oldTotalCapture l).map parseDigits with _ | v3 <;> simp only [h3] <;>
        rcases h2 : (oldTimerCapture l).map parseDigits with _ | v2 <;> simp only [h2] <;>
        rcases h1 : (oldIpiCapture l).map parseDigits with _ | v1 <;> simp only [h1] <;>
        rw [recordRate_history, recordRate_history, recordRate_history] <;>
        first
          | (intro c v; rfl)
          | (intro s c v; rfl)

theorem cpuIntStep_currentCPU (c : Ctx) (l : String) (cpu : String)
    (hcur : c.currentCPU ≠ cpu)
    (hhdr : ∀ ds, cpuInterruptMatch l = some ds → ("CPU" ++ String.mk ds) ≠ cpu) :
    (cpuIntProcessLine c l).1.currentCPU ≠ cpu := by
  have hc1 : (recordRate c (ipiRateCapture l) ipiAdd ipiSet).currentCPU = c.currentCPU :=
    recordRate_currentCPU _ _ _ _ (fun c v => rfl)
  have hc2 : (recordRate (recordRate c (ipiRateCapture l) ipiAdd ipiSet)
      (timerRateCapture l) timerAdd timerSet).currentCPU = c.currentCPU :=
    (recordRate_currentCPU _ (timerRateCapture l) timerAdd timerSet
      (fun c v => rfl)).trans hc1
  have hc3 : (recordRate (recordRate (recordRate c (ipiRateCapture l) ipiAdd ipiSet)
      (timerRateCapture l) timerAdd timerSet)
      (totalRateCapture l) totalAdd totalSet).currentCPU = c.currentCPU :=
    (recordRate_currentCPU _ (totalRateCapture l) totalAdd totalSet
      (fun c v => rfl)).trans hc2
  simp only [cpuIntProcessLine]
  split
  · exact hcur
  · rcases hm : cpuInterruptMatch l with _ | ds <;> simp only [hm]
    · rcases h3 : (oldTotalCapture l).map parseDigits with _ | v3 <;> simp only [h3] <;>
        rcases h2 : (oldTimerCapture l).map parseDigits with _ | v2 <;> simp only [h2] <;>
        rcases h1 : (oldIpiCapture l).map parseDigits with _ | v1 <;> simp only [h1] <;>
        · show _ ≠ cpu
          rw [hc3]
          exact hcur
    · exact hhdr ds hm

theorem cpuIntStep_rates (c : Ctx) (l : String) (cpu : String)
    (hcur : c.currentCPU ≠ cpu) :
    alookup ((cpuIntProcessLine c l).1.metricsState.perCPUInterrupts) cpu
      = alookup c.metricsState.perCPUInterrupts cpu := by
  have hc1 : (recordRate c (ipiRateCapture l) ipiAdd ipiSet).currentCPU = c.currentCPU :=
    recordRate_currentCPU _ _ _ _ (fun c v => rfl)
  have hc2 : (recordRate (recordRate c (ipiRateCapture l) ipiAdd ipiSet)
      (timerRateCapture l) timerAdd timerSet).currentCPU = c.currentCPU :=
    (recordRate_currentCPU _ (timerRateCapture l) timerAdd timerSet
      (fun c v => rfl)).trans hc1
  have hr1 : alookup (recordRate c (ipiRateCapture l) ipiAdd ipiSet).metricsState.perCPUInterrupts
      cpu = alookup c.metricsState.perCPUInterrupts cpu :=
    recordRate_rates_ne _ _ _ _ cpu (fun c v => rfl) (fun c v => rfl)
      (fun s c v _ => rfl) hcur
  have hr2 : alookup (recordRate (recordRate c (ipiRateCapture l) ipiAdd ipiSet)
      (timerRateCapture l) timerAdd timerSet).metricsState.perCPUInterrupts cpu
      = alookup c.metricsState.perCPUInterrupts cpu :=
    (recordRate_rates_ne _ (timerRateCapture l) timerAdd timerSet cpu
      (fun c v => rfl) (fun c v => rfl)
      (fun s c v _ => rfl) (by rw [hc1]; exact hcur)).trans hr1
  have hr3 : alookup (recordRate (recordRate (recordRate c (ipiRateCapture l) ipiAdd ipiSet)
      (timerRateCapture l) timerAdd timerSet)
      (totalRateCapture l) totalAdd totalSet).metricsState.perCPUInterrupts cpu
      = alookup c.metricsState.perCPUInterrupts cpu :=
    (recordRate_rates_ne _ (totalRateCapture l) totalAdd totalSet cpu
      (fun c v => rfl) (fun c v => rfl)
      (fun s c v hne => alookup_aset_ne _ cpu c v hne) (by rw [hc2]; exact hcur)).trans hr2
  simp only [cpuIntProcessLine]
  split
  · rfl
  · rcases hm : cpuInterruptMatch l with _ | ds <;> simp only [hm]
    · rcases h3 : (oldTotalCapture l).map parseDigits with _ | v3 <;> simp only [h3] <;>
        rcases h2 : (oldTimerCapture l).map parseDigits with _ | v2 <;> simp only [h2] <;>
        rcases h1 : (oldIpiCapture l).map parseDigits with _ | v1 <;> simp only [h1] <;>
        exact hr3

theorem foldl_cpuIntStep_history (lines : List String) :
    ∀ c : Ctx,
      ((lines.foldl (fun c l => (cpuIntProcessLine c l).1) c).metricsState.perCPUInterruptHistory)
        = c.metricsState.perCPUInterruptHistory := by
  induction lines with
  | nil => exact fun c => rfl
  | cons hd tl ih => exact fun c => (ih _).trans (cpuIntStep_history c hd)

theorem foldl_cpuIntStep_inv (lines : List String) (cpu : String)
    (hhdr : ∀ l ∈ lines, ∀ ds, cpuInterruptMatch l = some ds → ("CPU" ++ String.mk ds) ≠ cpu) :
    ∀ c : Ctx, c.currentCPU ≠ cpu →
      (lines.foldl (fun c l => (cpuIntProcessLine c l).1) c).currentCPU ≠ cpu ∧
      alookup ((lines.foldl (fun c l =>
          (cpuIntProcessLine c l).1) c).metricsState.perCPUInterrupts) cpu
        = alookup c.metricsState.perCPUInterrupts cpu := by
  induction lines with
  | nil => exact fun c h => ⟨h, rfl⟩
  | cons hd tl ih =>
    intro c h
    rw [List.foldl_cons]
    have hh : ∀ ds, cpuInterruptMatch hd = some ds → ("CPU" ++ String.mk ds) ≠ cpu :=
      fun ds hds => hhdr hd (List.mem_cons_self hd tl) ds hds
    have htl : ∀ l ∈ tl, ∀ ds, cpuInterruptMatch l = some ds → ("CPU" ++ String.mk ds) ≠ cpu :=
      fun l hl => hhdr l (List.mem_cons_of_mem hd hl)
    obtain ⟨h1, h2⟩ := ih htl _ (cpuIntStep_currentCPU c hd cpu h hh)
    exact ⟨h1, h2.trans (cpuIntStep_rates c hd cpu h)⟩

theorem irqMid_history (st : MetricsState) (lines : List String) :
    (irqMid st lines).perCPUInterruptHistory = st.perCPUInterruptHistory := by
  refine (foldl_cpuIntStep_history lines _).trans ?_
  exact foldl_resetCPUStep_history _ _

theorem irqMid_rates_silent (st : MetricsState) (lines : List String) (cpu : String)
    (hseen : cpu ∈ st.allSeenCPUs) (hne : cpu ≠ "") (hsil : cpu ∉ headerCPUs lines) :
    alookup (irqMid st lines).perCPUInterrupts cpu = some 0 := by
  have hhdr : ∀ l ∈ lines, ∀ ds, cpuInterruptMatch l = some ds →
      ("CPU" ++ String.mk ds) ≠ cpu := by
    intro l hl ds hds he
    exact hsil (List.mem_filterMap.mpr ⟨l, hl, by simp [hds, he]⟩)
  have hcur0 : (wfsExit (wfsEnter { metricsState := st } : Ctx)).currentCPU ≠ cpu :=
    fun h => hne h.symm
  obtain ⟨h1, h2⟩ := foldl_cpuIntStep_inv lines cpu hhdr _ hcur0
  have h0 : alookup
      (wfsExit (wfsEnter { metricsState := st } : Ctx)).metricsState.perCPUInterrupts cpu
      = some 0 :=
    foldl_resetCPUStep_mem st.allSeenCPUs cpu hseen st
  exact h2.trans h0

/-- C6 (amended): a parse-and-commit pass appends exactly one entry - the
CPU's committed interrupt rate, or 0 when nothing was recorded for it - to
the history of every CPU in the commit-time all-seen set, so each pass
takes a history of length at most 30 to length min(old + 1, 30); a
previously seen CPU that no header line names this pass gets exactly the
zero entry. -/
theorem C6_per_cpu_history_amended (st : MetricsState) (lines : List String) (cpu : String)
    (hnd : (irqMid st lines).allSeenCPUs.Nodup)
    (hmem : cpu ∈ (irqMid st lines).allSeenCPUs)
    (hlen : ((alookup st.perCPUInterruptHistory cpu).getD []).length ≤ 30) :
    alookup (irqPass st lines).perCPUInterruptHistory cpu
      = some (AddToHistory ((alookup st.perCPUInterruptHistory cpu).getD [])
          ((alookup (irqMid st lines).perCPUInterrupts cpu).getD 0) 30) ∧
    ((alookup (irqPass st lines).perCPUInterruptHistory cpu).getD []).length
      = min (((alookup st.perCPUInterruptHistory cpu).getD []).length + 1) 30 ∧
    ((alookup (irqPass st lines).perCPUInterruptHistory cpu).getD []).length ≤ 30 ∧
    (cpu ∈ st.allSeenCPUs → cpu ≠ "" → cpu ∉ headerCPUs lines →
      alookup (irqPass st lines).perCPUInterruptHistory cpu
        = some (AddToHistory ((alookup st.perCPUInterruptHistory cpu).getD []) 0 30)) := by
  have h1 : alookup (irqPass st lines).perCPUInterruptHistory cpu
      = some (AddToHistory ((alookup st.perCPUInterruptHistory cpu).getD [])
          ((alookup (irqMid st lines).perCPUInterrupts cpu).getD 0) 30) := by
    rw [irqPass_eq_commit]
    rw [show commitIRQHistory (irqMid st lines)
        = (irqMid st lines).allSeenCPUs.foldl commitCPUStep (irqMid st lines) from rfl]
    rw [foldl_commitCPUStep_mem (irqMid st lines).allSeenCPUs cpu hnd hmem (irqMid st lines)]
    rw [irqMid_history]
  refine ⟨h1, ?_, ?_, ?_⟩
  · rw [h1, Option.getD_some]
    exact AddToHistory_length_min _ _ 30 hlen
  · rw [h1, Option.getD_some]
    exact AddToHistory_length_le _ _ 30 hlen
  · intro hseen hne hsil
    rw [h1, irqMid_rates_silent st lines cpu hseen hne hsil, Option.getD_some]

/-- C6 counterexample to the unamended claim: after two passes CPU 1,
which joined the all-seen set only in the second pass, has a history of
length 1, not min(samples_seen, 30) = 2, while CPU 0 has length 2: history
lengths do not equal min(samples_seen, 30) for every all-seen CPU. -/
theorem C6_counterexample :
    ("CPU1") ∈ c6st2.allSeenCPUs ∧
    ((alookup c6st2.perCPUInterruptHistory ("CPU1")).getD []).length = 1 ∧
    ((alookup c6st2.perCPUInterruptHistory ("CPU0")).getD []).length = 2 ∧
    (1 : Nat) ≠ min 2 30 := by
  decide

/-- C6 witness: CPU 0 was seen before and stays silent in a pass that only
CPU 1 reports in; its history grows from one entry to exactly two, with a
zero appended. -/
theorem C6_witness :
    ((alookup (irqPass c6wst c6wlines).perCPUInterruptHistory ("CPU0")).getD []).length
      = min 2 30 ∧
    alookup (irqPass c6wst c6wlines).perCPUInterruptHistory ("CPU0")
      = some (AddToHistory [(3 : ℚ)] 0 30) := by
  obtain ⟨h1, h2, h3, h4⟩ := C6_per_cpu_history_amended c6wst c6wlines ("CPU0") (by decide) (by decide)
    (by decide)
  exact ⟨h2.trans (by decide), h4 (by decide) (by decide) (by decide)⟩

theorem foldl_buildStep_fst (freqMap : List (Nat × Nat)) :
    ∀ (l : List (Nat × Nat)) (acc : List Nat × List (Nat × List ℚ)),
      (l.foldl (buildStep freqMap) acc).1
        = acc.1 ++ l.map (fun p => (alookup freqMap p.2).getD 0) := by
  intro l
  induction l with
  | nil => exact fun acc => (List.append_nil _).symm
  | cons hd tl ih =>
    intro acc
    rw [List.foldl_cons, ih]
    show (acc.1 ++ [(alookup freqMap hd.2).getD 0]) ++ _ = _
    rw [List.append_assoc]
    rfl

theorem buildCoreFreqs_fst (cpus : List Nat) (freqMap : List (Nat × Nat))
    (hist : List (Nat × List ℚ)) :
    (buildCoreFreqs cpus freqMap hist).1
      = cpus.map (fun c => (alookup freqMap c).getD 0) := by
  rw [buildCoreFreqs, foldl_buildStep_fst]
  show cpus.enum.map _ = _
  rw [show (fun p : Nat × Nat => (alookup freqMap p.2).getD 0)
      = (fun c => (alookup freqMap c).getD 0) ∘ Prod.snd from rfl]
  rw [← List.map_map, List.enum_map_snd]

theorem organize_eCoreFreq (st : MetricsState) (hni : st.allCpuFreq.isEmpty = false) :
    (organizeCPUFrequencies st).eCoreFreq
      = (buildCoreFreqs (eClusterCPUs st) st.allCpuFreq st.eCoreFreqHistory).1 := by
  unfold organizeCPUFrequencies eClusterCPUs
  rw [if_neg (by rw [hni]; exact Bool.false_ne_true)]
  dsimp only
  cases hci : st.allSeenCPUs.any (fun k => sHasPrefix k ("E-CPU") || sHasPrefix k ("P-CPU")) <;>
    (repeat' split) <;> rfl

theorem organize_pCoreFreq (st : MetricsState) (hni : st.allCpuFreq.isEmpty = false) :
    (organizeCPUFrequencies st).pCoreFreq
      = (buildCoreFreqs (pClusterCPUs st) st.allCpuFreq st.pCoreFreqHistory).1 := by
  unfold organizeCPUFrequencies pClusterCPUs
  rw [if_neg (by rw [hni]; exact Bool.false_ne_true)]
  dsimp only
  cases hci : st.allSeenCPUs.any (fun k => sHasPrefix k ("E-CPU") || sHasPrefix k ("P-CPU")) <;>
    (repeat' split) <;> rfl

/-- C7: with no cluster-membership markers among the seen CPU labels, the
classifier puts nothing in the efficiency group and emits a single list -
the observed cores sorted ascending, each mapped to its observed frequency
- whose length is the number of observed cores; with only efficiency
markers, the performance group is empty and every classified frequency
(defaulting to 0 for cores absent from this sample) lands in the
efficiency group. -/
theorem C7_frequency_classifier (st : MetricsState) (hne : st.allCpuFreq ≠ []) :
    ((∀ k ∈ st.allSeenCPUs,
        sHasPrefix k ("E-CPU") = false ∧ sHasPrefix k ("P-CPU") = false) →
      (organizeCPUFrequencies st).eCoreFreq = [] ∧
      (organizeCPUFrequencies st).pCoreFreq
        = (sortCores (st.allCpuFreq.map (fun p => p.1))).map
            (fun c => (alookup st.allCpuFreq c).getD 0) ∧
      List.Sorted (fun a b : Nat => a ≤ b)
        (sortCores (st.allCpuFreq.map (fun p => p.1))) ∧
      (organizeCPUFrequencies st).pCoreFreq.length = st.allCpuFreq.length) ∧
    ((∃ k ∈ st.allSeenCPUs, sHasPrefix k ("E-CPU") = true) →
      (∀ k ∈ st.allSeenCPUs, sHasPrefix k ("P-CPU") = false) →
      (organizeCPUFrequencies st).pCoreFreq = [] ∧
      (organizeCPUFrequencies st).eCoreFreq
        = (sortCores (st.allSeenCPUs.filterMap (clusterCore ("E-CPU")))).map
            (fun c => (alookup st.allCpuFreq c).getD 0)) := by
  have hni : st.allCpuFreq.isEmpty = false := by
    rcases h : st.allCpuFreq with _ | ⟨a, l⟩
    · exact absurd h hne
    · rfl
  constructor
  · intro hno
    have hci : st.allSeenCPUs.any
        (fun k => sHasPrefix k ("E-CPU") || sHasPrefix k ("P-CPU")) = false := by
      rw [List.any_eq_false]
      intro k hk
      rw [(hno k hk).1, (hno k hk).2]
      decide
    have he : eClusterCPUs st = [] := by
      unfold eClusterCPUs
      rw [if_neg (by rw [hci]; exact Bool.false_ne_true)]
    have hp : pClusterCPUs st = sortCores (st.allCpuFreq.map (fun p => p.1)) := by
      unfold pClusterCPUs
      rw [if_neg (by rw [hci]; exact Bool.false_ne_true)]
    refine ⟨?_, ?_, ?_, ?_⟩
    · rw [organize_eCoreFreq st hni, he]
      rfl
    · rw [organize_pCoreFreq st hni, hp, buildCoreFreqs_fst]
    · exact List.sorted_insertionSort _ _
    · rw [organize_pCoreFreq st hni, hp, buildCoreFreqs_fst, List.length_map]
      exact ((List.perm_insertionSort _ _).length_eq).trans (List.length_map _ _)
  · intro hE hP
    have hci : st.allSeenCPUs.any
        (fun k => sHasPrefix k ("E-CPU") || sHasPrefix k ("P-CPU")) = true := by
      rw [List.any_eq_true]
      obtain ⟨k, hk, h⟩ := hE
      exact ⟨k, hk, by rw [h]; rfl⟩
    have hp0 : pClusterCPUs st = [] := by
      unfold pClusterCPUs
      rw [if_pos hci]
      rw [show st.allSeenCPUs.filterMap
          (fun k => if sHasPrefix k ("E-CPU") = true then none
            else clusterCore ("P-CPU") k) = [] from ?_]
      · rfl
      · rw [List.filterMap_eq_nil_iff]
        intro k hk
        by_cases hEk : sHasPrefix k ("E-CPU") = true
        · rw [if_pos hEk]
        · rw [if_neg hEk]
          unfold clusterCore
          rw [if_neg (by rw [hP k hk]; exact Bool.false_ne_true)]
    have heq : eClusterCPUs st
        = sortCores (st.allSeenCPUs.filterMap (clusterCore ("E-CPU"))) := by
      unfold eClusterCPUs
      rw [if_pos hci]
    constructor
    · rw [organize_pCoreFreq st hni, hp0]
      rfl
    · rw [organize_eCoreFreq st hni, heq, buildCoreFreqs_fst]

/-- C7 witness: a marker-free sample yields the single sorted list
[1000, 1200] and an empty efficiency group; an efficiency-only sample
yields an empty performance group and [600, 0] with the missing core
zero-defaulted. -/
theorem C7_witness :
    ((organizeCPUFrequencies c7stA).eCoreFreq = [] ∧
      (organizeCPUFrequencies c7stA).pCoreFreq = [1000, 1200] ∧
      (organizeCPUFrequencies c7stA).pCoreFreq.length = 2) ∧
    ((organizeCPUFrequencies c7stB).pCoreFreq = [] ∧
      (organizeCPUFrequencies c7stB).eCoreFreq = [600, 0]) := by
  obtain ⟨h1, h2, h3, h4⟩ := (C7_frequency_classifier c7stA (by decide)).1 (by decide)
  obtain ⟨h5, h6⟩ := (C7_frequency_classifier c7stB (by decide)).2 (by decide) (by decide)
  exact ⟨⟨h1, h2.trans (by decide), h4.trans (by decide)⟩, ⟨h5, h6.trans (by decide)⟩⟩

end PMT
